import Mathlib

/-!
Verification development for the NEPattern validation-and-coercion engine
(`src/nepattern/base.py`, `core.py`, `context.py`, `func.py`).

The Python code is shallowly embedded: dynamic values become the inductive
type `PyVal`, Python exceptions become the error type `PyErr`, and every
function that can raise returns `Except PyErr _`.  Definitions are
translated from the source files; host-language builtins that the source
calls (`int(x)`, `str.lower`, list slicing, `re.split` on the fixed
separator patterns used by the code) are modelled by small executable Lean
functions documented at their definition sites.  The value universe is
restricted to scalars and flat containers of scalars, which covers every
value the claims exercise.
-/

set_option maxHeartbeats 1000000
set_option maxRecDepth 2000

deriving instance DecidableEq for Except

namespace NEPattern

/-- Scalar Python values. -/
inductive PyAtom where
  | none
  | bool (b : Bool)
  | int (n : Int)
  | str (s : String)
deriving DecidableEq, Repr

/-- Python runtime values: scalars, lists of scalars, dicts over scalars. -/
inductive PyVal where
  | atom (a : PyAtom)
  | list (xs : List PyAtom)
  | dict (xs : List (PyAtom × PyAtom))
deriving DecidableEq, Repr

/-- Shorthand for the `None` value. -/
def PyVal.vnone : PyVal := .atom .none

/-- Shorthand for a boolean value. -/
def PyVal.vbool (b : Bool) : PyVal := .atom (.bool b)

/-- Shorthand for an integer value. -/
def PyVal.vint (n : Int) : PyVal := .atom (.int n)

/-- Shorthand for a string value. -/
def PyVal.vstr (s : String) : PyVal := .atom (.str s)

/-- Python exceptions raised by the engine or the builtins it calls.
`matchFailed` embeds `nepattern.exception.MatchFailed`; the others are the
host exceptions (`TypeError`, `ValueError`, `RuntimeError`, ...). -/
inductive PyErr where
  | matchFailed (msg : String)
  | typeError (msg : String)
  | valueError (msg : String)
  | runtimeError (msg : String)
  | indexError (msg : String)
  | keyError (msg : String)
  | attributeError (msg : String)
deriving DecidableEq, Repr

/-- The type objects the embedded patterns use as `origin`/`accepts`. -/
inductive PyType where
  | noneT
  | boolT
  | intT
  | strT
  | listT
  | dictT
  | anyT
deriving DecidableEq, Repr

/-- `tarina.generic_isinstance` on the embedded universe.  As in Python,
`bool` is a subclass of `int`, and every value is an instance of `Any`. -/
def isInst : PyVal → PyType → Bool
  | _, .anyT => true
  | .atom .none, .noneT => true
  | .atom (.bool _), .boolT => true
  | .atom (.bool _), .intT => true
  | .atom (.int _), .intT => true
  | .atom (.str _), .strT => true
  | .list _, .listT => true
  | .dict _, .dictT => true
  | _, _ => false

/-- Python truthiness (`bool(x)`) of the embedded values. -/
def truthy : PyVal → Bool
  | .atom .none => false
  | .atom (.bool b) => b
  | .atom (.int n) => n != 0
  | .atom (.str s) => s != ""
  | .list xs => !xs.isEmpty
  | .dict xs => !xs.isEmpty

/-- `Except.isOk` helper: `true` when the computation did not raise. -/
def exIsOk {ε α : Type} : Except ε α → Bool
  | .ok _ => true
  | .error _ => false

/-- `true` when the computation either succeeded or raised `MatchFailed`
(the only exception the composite matchers catch). -/
def errIsMF : Except PyErr PyVal → Bool
  | .ok _ => true
  | .error (.matchFailed _) => true
  | .error _ => false

/-! ### String builtins used by the source -/

/-- Python `\s` whitespace characters. -/
def isPyWS (c : Char) : Bool :=
  c = ' ' || c = '\t' || c = '\n' || c = '\r' || c = Char.ofNat 11 || c = Char.ofNat 12

/-- Drop leading whitespace from a character list. -/
def trimLeftChars : List Char → List Char
  | [] => []
  | c :: cs => if isPyWS c then trimLeftChars cs else c :: cs

/-- Drop trailing whitespace from a character list. -/
def trimRightChars (cs : List Char) : List Char :=
  (trimLeftChars cs.reverse).reverse

/-- Drop whitespace on both sides. -/
def trimChars (cs : List Char) : List Char :=
  trimRightChars (trimLeftChars cs)

/-- Value of a non-empty all-digit character list. -/
def digitsVal (ds : List Char) : Option Nat :=
  if ds.isEmpty then Option.none
  else if ds.all Char.isDigit then
    Option.some (ds.foldl (fun acc d => acc * 10 + (d.toNat - 48)) 0)
  else Option.none

/-- Model of the Python builtin `int(s)` on strings: surrounding whitespace
is stripped, an optional sign is allowed, then decimal digits.  (Underscore
separators and non-ASCII digits are not modelled.) -/
def pyIntParse (s : String) : Option Int :=
  match trimChars s.data with
  | '-' :: rest => (digitsVal rest).map (fun n => -(n : Int))
  | '+' :: rest => (digitsVal rest).map (fun n => (n : Int))
  | cs => (digitsVal cs).map (fun n => (n : Int))

/-- Model of the Python builtin `int(x)` on embedded values.  `int(True)`
is the plain integer `1` and `int(False)` is `0`; non-numeric values raise
`TypeError`, unparsable strings raise `ValueError`. -/
def pyIntOf : PyVal → Except PyErr Int
  | .atom (.bool b) => .ok (if b then 1 else 0)
  | .atom (.int n) => .ok n
  | .atom (.str s) =>
    match pyIntParse s with
    | Option.some n => .ok n
    | Option.none => .error (.valueError "invalid literal for int() with base 10")
  | _ => .error (.typeError "int() argument must be a string or a number")

/-- The guard `isinstance(input_, (str, bytes, bytearray)) and len(input_) > 4300`
from `IntPattern.match`. -/
def intStrTooLong : PyVal → Bool
  | .atom (.str s) => s.length > 4300
  | _ => false

/-- `IntPattern.match` (`base.py` lines 558-568): an `int` input that is not
the boolean `True`/`False` is returned unchanged; an over-long string raises
a bare `ValueError` before conversion is attempted; otherwise `int(input)`
is tried and conversion errors are re-raised as `MatchFailed`.
(The `bytes`/`bytearray` input kinds are outside the embedded universe.) -/
def intPatternMatch (input : PyVal) : Except PyErr PyVal :=
  if isInst input .intT = true ∧ input ≠ .vbool true ∧ input ≠ .vbool false then
    .ok input
  else if intStrTooLong input then
    .error (.valueError "int too large to convert")
  else
    match pyIntOf input with
    | .ok n => .ok (.vint n)
    | .error _ => .error (.matchFailed "content_error: expected int")

/-! ### String rendering builtins (`str(x)` / `repr(x)`) -/

/-- Opening brace character, kept out of string literals. -/
def obraceC : Char := Char.ofNat 123

/-- Closing brace character, kept out of string literals. -/
def cbraceC : Char := Char.ofNat 125

/-- Python `str(x)` on scalars. -/
def pyAtomStr : PyAtom → String
  | .none => "None"
  | .bool b => if b then "True" else "False"
  | .int n => toString n
  | .str s => s

/-- Python `repr(x)` on scalars (strings gain quotes). -/
def pyAtomRepr : PyAtom → String
  | .str s => "'" ++ s ++ "'"
  | a => pyAtomStr a

/-- Python `str(x)` on embedded values. -/
def pyStr : PyVal → String
  | .atom a => pyAtomStr a
  | .list xs => "[" ++ String.intercalate ", " (xs.map pyAtomRepr) ++ "]"
  | .dict xs =>
    String.mk [obraceC] ++
      String.intercalate ", " (xs.map (fun p => pyAtomRepr p.1 ++ ": " ++ pyAtomRepr p.2)) ++
      String.mk [cbraceC]

/-- Calling a type object on a value (`origin(x)`), the default converter of
`TYPE_CONVERT` patterns (`core.py` line 668).  May raise, as in Python. -/
def pyCoerce (t : PyType) (v : PyVal) : Except PyErr PyVal :=
  match t with
  | .intT => (pyIntOf v).map PyVal.vint
  | .strT => .ok (.vstr (pyStr v))
  | .boolT => .ok (.vbool (truthy v))
  | .noneT => .error (.typeError "cannot create NoneType instances")
  | .anyT => .error (.typeError "Any cannot be instantiated")
  | .listT =>
    match v with
    | .list xs => .ok (.list xs)
    | .atom (.str s) => .ok (.list (s.data.map (fun ch => .str (String.mk [ch]))))
    | _ => .error (.typeError "object is not iterable")
  | .dictT =>
    match v with
    | .dict xs => .ok (.dict xs)
    | _ => .error (.typeError "object is not a mapping")

/-! ### `ValidateResult` (`core.py` lines 50-109) -/

/-- `ResultFlag`. -/
inductive RFlag where
  | valid
  | error
  | default
deriving DecidableEq, Repr

/-- `ValidateResult`: `val` is `_value` (`Option.none` models the `Empty`
sentinel), `err` is `_error`, `flag` is `flag`. -/
structure VRes where
  val : Option PyVal
  err : Option PyErr
  flag : RFlag
deriving DecidableEq, Repr

/-- The `success` property: `flag == ResultFlag.VALID`. -/
def VRes.success (r : VRes) : Bool := r.flag == .valid

/-- `ValidateResult.value` (`core.py` lines 65-68): raises `RuntimeError`
when the result is in the error state or no value was ever set. -/
def vresValue (r : VRes) : Except PyErr PyVal :=
  if r.flag = .error then .error (.runtimeError "cannot access value")
  else
    match r.val with
    | Option.none => .error (.runtimeError "cannot access value")
    | Option.some v => .ok v

/-- A pattern as seen by `validate`/composition: its compiled `match`
function, its `validators` list and its declared `origin` type. -/
structure Pat where
  matchFn : PyVal → Except PyErr PyVal
  validators : List (PyVal → Bool) := []
  origin : PyType := .anyT

/-- `BasePattern.validate` (`core.py` lines 768-782): runs `match`, then the
`validators`; every exception is caught (`except Exception`), turning into
an error result, or a default result when a default was supplied. -/
def bpValidate (p : Pat) (input : PyVal) (default : Option PyVal) : VRes :=
  match p.matchFn input with
  | .ok res =>
    if !p.validators.isEmpty && !(p.validators.all (fun f => f res)) then
      match default with
      | Option.none => ⟨Option.none, Option.some (.matchFailed "validate_error"), .error⟩
      | Option.some d => ⟨Option.some d, Option.none, .default⟩
    else ⟨Option.some res, Option.none, .valid⟩
  | .error e =>
    match default with
    | Option.none => ⟨Option.none, Option.some e, .error⟩
    | Option.some d => ⟨Option.some d, Option.none, .default⟩

/-- The argument kinds accepted by `ValidateResult.step`: a type object, a
callable, another pattern, or anything else.  (In Python a type object is
itself callable; the embedding keeps the two apart so that the `other is
bool` test of the source can be expressed.) -/
inductive StepArg where
  | typ (t : PyType)
  | callable (f : PyVal → PyVal)
  | pattern (p : Pat)
  | other

/-- What `step` returns: either a plain value or a `ValidateResult`. -/
inductive StepRes where
  | raw (v : PyVal)
  | result (r : VRes)
deriving DecidableEq, Repr

/-- `ValidateResult.step` (`core.py` lines 87-94), line by line:
`if other is bool: return self.success`;
`if callable(other) and self.success: return other(self.value())` (type
objects are callable, and calling one coerces);
`return other.validate(self.value()) if isinstance(other, BasePattern) else self`. -/
def vresStep (r : VRes) (arg : StepArg) : Except PyErr StepRes :=
  match arg with
  | .typ t =>
    if t = .boolT then .ok (.raw (.vbool r.success))
    else if r.success then
      match vresValue r with
      | .error e => .error e
      | .ok v => (pyCoerce t v).map .raw
    else .ok (.result r)
  | .callable f =>
    if r.success then
      match vresValue r with
      | .error e => .error e
      | .ok v => .ok (.raw (f v))
    else .ok (.result r)
  | .pattern p =>
    match vresValue r with
    | .error e => .error e
    | .ok v => .ok (.result (bpValidate p v Option.none))
  | .other => .ok (.result r)

/-! ### The compiled mode dispatch functions (`core.py`) -/

/-- `_keep_no_previous` (`core.py` lines 116-123). -/
def keepNoPrevious (accept : PyVal → Bool) (input : PyVal) : Except PyErr PyVal :=
  if !accept input then .error (.matchFailed "type_error")
  else .ok input

/-- `_type_convert_no_previous_no_accepts_other` (`core.py` lines 329-338):
an input already of the origin type short-circuits; otherwise the converter
runs, its `None` return becoming a content error and its exceptions
propagating. -/
def typeConvertNoPrevNoAcceptsOther (origin : PyType)
    (conv : PyVal → Except PyErr (Option PyVal)) (input : PyVal) :
    Except PyErr PyVal :=
  if isInst input origin then .ok input
  else
    match conv input with
    | .error e => .error e
    | .ok Option.none => .error (.matchFailed "content_error")
    | .ok (Option.some res) => .ok res

/-- `_regex_convert_no_previous_other` (`core.py` lines 212-226): origin
instances short-circuit; non-strings are a type error; otherwise the
anchored regex runs (modelled by `rmatch`, producing the match payload)
and its result is fed to the converter. -/
def regexConvertNoPrevOther {M : Type} (origin : PyType)
    (rmatch : String → Option M)
    (conv : M → Except PyErr (Option PyVal)) (input : PyVal) :
    Except PyErr PyVal :=
  if isInst input origin then .ok input
  else
    match input with
    | .atom (.str s) =>
      match rmatch s with
      | Option.some m =>
        match conv m with
        | .error e => .error e
        | .ok Option.none => .error (.matchFailed "content_error")
        | .ok (Option.some res) => .ok res
      | Option.none => .error (.matchFailed "content_error")
    | _ => .error (.matchFailed "type_error")

/-- `_value_operate_no_previous` (`core.py` lines 535-548): the input must
already be of the origin type, and the converter is then always applied. -/
def valueOperateNoPrevious (origin : PyType)
    (conv : PyVal → Except PyErr (Option PyVal)) (input : PyVal) :
    Except PyErr PyVal :=
  if !isInst input origin then .error (.matchFailed "type_error")
  else
    match conv input with
    | .error e => .error e
    | .ok Option.none => .error (.matchFailed "content_error")
    | .ok (Option.some res) => .ok res

/-! ### `AntiPattern` (`base.py` lines 401-450) -/

/-- `AntiPattern.validate` (`base.py` lines 424-447): only `MatchFailed`
from the wrapped pattern's `match` is caught (and turned into success with
the original input); any other exception propagates.  `AntiPattern` is
constructed with an empty `validators` list of its own, so the loop over
`self.base.validators + self.validators` reduces to the base validators. -/
def antiValidate (base : Pat) (input : PyVal) (default : Option PyVal) :
    Except PyErr VRes :=
  match base.matchFn input with
  | .error (.matchFailed _) => .ok ⟨Option.some input, Option.none, .valid⟩
  | .error e => .error e
  | .ok res =>
    if !(base.validators.all (fun f => f res)) then
      .ok ⟨Option.some input, Option.none, .valid⟩
    else
      match default with
      | Option.none => .ok ⟨Option.none, Option.some (.matchFailed "content_error"), .error⟩
      | Option.some d => .ok ⟨Option.some d, Option.none, .default⟩

/-- The `match` function an `AntiPattern` actually carries: `AntiPattern`
never overrides `match`, so `BasePattern.__init__` installs the ordinary
`TYPE_CONVERT` dispatch for `origin = pattern.origin` with the default
converter `origin(x)` (no accepts filter, no previous). -/
def antiMatchOf (base : Pat) : PyVal → Except PyErr PyVal :=
  typeConvertNoPrevNoAcceptsOther base.origin
    (fun v => (pyCoerce base.origin v).map Option.some)

/-! ### Concrete patterns used by the tests and witnesses -/

/-- `DirectTypePattern.match` (`base.py` lines 93-100). -/
def directTypeMatch (target : PyType) (input : PyVal) : Except PyErr PyVal :=
  if !isInst input target then .error (.matchFailed "type_error")
  else .ok input

/-- `DirectPattern.match` (`base.py` lines 45-50). -/
def directMatch (target : PyVal) (input : PyVal) : Except PyErr PyVal :=
  if input ≠ target then .error (.matchFailed "content_error")
  else .ok input

/-- `BasePattern.of(int)`, i.e. `DirectTypePattern(int)`. -/
def directTypeIntPat : Pat := { matchFn := directTypeMatch .intT, origin := .intT }

/-- The prebuilt `INTEGER` pattern as a `Pat`. -/
def integerPat : Pat := { matchFn := intPatternMatch, origin := .intT }

/-- The test validator `lambda x: x > 0` over integer results. -/
def positiveValidator : PyVal → Bool
  | .atom (.int n) => decide (0 < n)
  | _ => false

/-- The test pattern `BasePattern(mode=MatchMode.KEEP, accepts=int,
validators=[lambda x: x > 0])`. -/
def keepIntPositivePat : Pat :=
  { matchFn := keepNoPrevious (fun v => isInst v .intT),
    validators := [positiveValidator] }

/-- The test converter `lambda _, x: x + 1` of the `VALUE_OPERATE` example. -/
def incrConv : PyVal → Except PyErr (Option PyVal)
  | .atom (.int n) => .ok (Option.some (.vint (n + 1)))
  | _ => .ok Option.none

/-- A 4301-character digit string (`"1" * 4301`). -/
def longNumStr : String := String.mk (List.replicate 4301 '1')

/-- ASCII lower-casing, Python `str.lower`. -/
def strLower (s : String) : String := String.mk (s.data.map Char.toLower)

/-- `BoolPattern.match` (`base.py` 631-644): the booleans pass through;
strings are lowercased and compared with `"true"`/`"false"`; everything
else is a content error.  (`bytes` inputs are outside the universe.) -/
def boolPatternMatch (input : PyVal) : Except PyErr PyVal :=
  if input = .vbool true ∨ input = .vbool false then .ok input
  else
    let input2 := match input with
      | .atom (.str s) => PyVal.vstr (strLower s)
      | v => v
    if input2 = .vstr "true" then .ok (.vbool true)
    else if input2 = .vstr "false" then .ok (.vbool false)
    else .error (.matchFailed "content_error: expected bool")

/-! ### `UnionPattern` (`base.py` 161-212) -/

/-- A member of a `UnionPattern`'s base list: the `NONE` pattern, another
pattern, or a raw literal value. -/
inductive UMember where
  | nonePat
  | pat (p : Pat)
  | val (v : PyVal)

/-- The partition a `UnionPattern` builds at construction. -/
structure UnionSt where
  optional : Bool
  for_validate : List Pat
  for_equal : List PyVal

/-- One step of the member loop in `UnionPattern.__init__` (`base.py`
176-183): a member equal to `NONE` sets `optional` and appends the literal
`None` to `for_equal`; a `BasePattern` goes to `for_validate`; any other
value goes to `for_equal`. -/
def mkUnionStep (st : UnionSt) (arg : UMember) : UnionSt :=
  match arg with
  | .nonePat => { st with optional := true, for_equal := st.for_equal ++ [PyVal.vnone] }
  | .pat p => { st with for_validate := st.for_validate ++ [p] }
  | .val v => { st with for_equal := st.for_equal ++ [v] }

/-- `UnionPattern.__init__`'s partition of the member list. -/
def mkUnion (base : List UMember) : UnionSt :=
  base.foldl mkUnionStep ⟨false, [], []⟩

/-- The sub-pattern loop of `UnionPattern.match`: try `validate` on each
member in order, returning the first success's value.  (A valid result
from `bpValidate` always carries a value; `getD` is a totality artifact.) -/
def unionLoop (ps : List Pat) (input : PyVal) : Option PyVal :=
  match ps with
  | [] => Option.none
  | p :: rest =>
    if (bpValidate p input Option.none).flag = .valid then
      Option.some ((bpValidate p input Option.none).val.getD PyVal.vnone)
    else unionLoop rest input

/-- `UnionPattern.match` (`base.py` 187-197): a falsy input becomes `None`;
an input literally contained in `for_equal` is returned immediately;
otherwise the sub-patterns are tried in order and failure of all of them is
a content error. -/
def unionMatch (st : UnionSt) (input : PyVal) : Except PyErr PyVal :=
  let input := if truthy input then input else PyVal.vnone
  if input ∈ st.for_equal then .ok input
  else
    match unionLoop st.for_validate input with
    | Option.some v => .ok v
    | Option.none => .error (.matchFailed "content_error")

/-- `DirectPattern("abc")` as a `Pat`. -/
def directAbcPat : Pat := { matchFn := directMatch (.vstr "abc"), origin := .strT }

/-- `DirectPattern("efg")` as a `Pat`. -/
def directEfgPat : Pat := { matchFn := directMatch (.vstr "efg"), origin := .strT }

/-! ### The pattern registry (`context.py` 9-62) -/

/-- Registry keys: string aliases or type objects. -/
inductive PKey where
  | str (s : String)
  | typ (t : PyType)
deriving DecidableEq, Repr

/-- A registered pattern as the registry logic sees it: its alias, its
origin, and whether it is a `UnionPattern` (with its base list). -/
inductive RPat where
  | basic (aliasName : Option String) (origin : PyType)
  | union (base : List RPat)

/-- `target.alias` as a key source.  (A `UnionPattern`'s alias is its
joined member repr; it is abstracted to a fixed token since the claims
only register basic patterns.) -/
def RPat.aliasOf : RPat → Option String
  | .basic a _ => a
  | .union _ => Option.some "union_repr"

/-- `target.origin` as a key source (`UnionPattern.origin` is `Any`). -/
def RPat.originOf : RPat → PyType
  | .basic _ o => o
  | .union _ => .anyT

/-- A call `UnionPattern(arg1, ..., argn)` with the registered patterns as
positional arguments, exactly as `Patterns.set` (`context.py` 32-36) and
`Patterns.remove` (`context.py` 49, 56-58) perform it.  The constructor
signature is `UnionPattern.__init__(self, base)` with one iterable
parameter (`base.py` 170): two or more positional arguments raise the
arity `TypeError`, and a single pattern argument raises `TypeError` when
`list(base)` iterates it, because `BasePattern` objects are not iterable.
No call of this shape can succeed. -/
def unionPatternCall (args : List RPat) : Except PyErr RPat :=
  match args with
  | [_] => .error (.typeError "argument of type BasePattern is not iterable")
  | _ => .error (.typeError "UnionPattern.__init__ takes 2 positional arguments")

/-- Dict lookup in the registry. -/
def regLookup (reg : List (PKey × RPat)) (k : PKey) : Option RPat :=
  match reg with
  | [] => Option.none
  | (k', v) :: rest => if k' = k then Option.some v else regLookup rest k

/-- Dict assignment: an existing key is updated in place, a fresh key is
appended (Python dict insertion-order semantics). -/
def regInsert (reg : List (PKey × RPat)) (k : PKey) (v : RPat) : List (PKey × RPat) :=
  match reg with
  | [] => [(k, v)]
  | (k', v') :: rest =>
    if k' = k then (k, v) :: rest else (k', v') :: regInsert rest k v

/-- The key set `{alias, None if no_alias else target.alias, target.origin}`
iterated by `Patterns.set` (`context.py` 25), as a deduplicated list.
Python set iteration order is unspecified; the failure proved about this
function is order-independent (`patternsSetGo_error_of_exists`).  Falsy
keys (`None` and `""`) are skipped by the `if not k: continue` guard. -/
def setKeys (aliasArg : Option String) (target : RPat) (no_alias : Bool) : List PKey :=
  (([aliasArg.map PKey.str,
     if no_alias then Option.none else target.aliasOf.map PKey.str,
     Option.some (PKey.typ target.originOf)].filterMap id).filter
    (fun k => k ≠ PKey.str "")).dedup

/-- The key loop of `Patterns.set` (`context.py` 25-36): a fresh key (or
`cover=True`) assigns the target; an occupied key with `cover=False` merges
by calling `UnionPattern` with positional pattern arguments. -/
def patternsSetGo (target : RPat) (cover : Bool) :
    List PKey → List (PKey × RPat) → Except PyErr (List (PKey × RPat))
  | [], reg => .ok reg
  | k :: ks, reg =>
    match regLookup reg k with
    | Option.none => patternsSetGo target cover ks (regInsert reg k target)
    | Option.some al_pat =>
      if cover then patternsSetGo target cover ks (regInsert reg k target)
      else
        match al_pat with
        | .union base =>
          match unionPatternCall (base ++ [target]) with
          | .ok merged => patternsSetGo target cover ks (regInsert reg k merged)
          | .error e => .error e
        | .basic a o =>
          match unionPatternCall [.basic a o, target] with
          | .ok merged => patternsSetGo target cover ks (regInsert reg k merged)
          | .error e => .error e

/-- `Patterns.set`. -/
def patternsSet (reg : List (PKey × RPat)) (target : RPat) (aliasArg : Option String)
    (cover : Bool) (no_alias : Bool) : Except PyErr (List (PKey × RPat)) :=
  patternsSetGo target cover (setKeys aliasArg target no_alias) reg

/-- The `NONE` entry installed by `Patterns.__init__` (`context.py` 13). -/
def nonePatR : RPat := .basic (Option.some "none") .noneT

/-- A fresh `Patterns` namespace: `{"": NONE}`. -/
def patternsInit : List (PKey × RPat) := [(.str "", nonePatR)]

/-- The claim's `P1`. -/
def regP1 : RPat := .basic (Option.some "P1") .intT

/-- The claim's `P2`. -/
def regP2 : RPat := .basic (Option.some "P2") .strT

/-! ### The combinators (`func.py`) -/

/-- `MatchMode` (`core.py` 15-27). -/
inductive MatchModeT where
  | keep
  | regexMatch
  | regexConvert
  | typeConvert
  | valueOperate
deriving DecidableEq, Repr

/-- The `BasePattern` record as the combinators see it.  `copy()` is
`deepcopy` (`core.py` 784-785), producing an equal independent value, so
the mutations the combinators perform on the copy are modelled as
functional record updates, which by construction leave the argument
untouched.  `rep` is the cached `_repr`. -/
structure BPatRec where
  matchFn : PyVal → Except PyErr PyVal
  aliasName : Option String
  origin : PyType
  mode : MatchModeT
  pattern : String
  validators : List (PyVal → Bool)
  rep : String

/-- Display name of a type. -/
def typeName : PyType → String
  | .noneT => "NoneType"
  | .boolT => "bool"
  | .intT => "int"
  | .strT => "str"
  | .listT => "list"
  | .dictT => "dict"
  | .anyT => "Any"

/-- `__calc_repr__` for the previous-free patterns the combinators build:
the alias when one is set, the origin name otherwise. -/
def reprCalc (r : BPatRec) : String :=
  match r.aliasName with
  | Option.some a => a
  | Option.none => typeName r.origin

/-- `BasePattern.refresh`: recompute the cached `_repr`. -/
def bprefresh (r : BPatRec) : BPatRec :=
  { r with rep := reprCalc r }

/-- Python `xs[i]` (negative indices count from the end; out of range is
`IndexError`). -/
def pyIndex (index : Int) (v : PyVal) : Except PyErr PyVal :=
  match v with
  | .list xs =>
    let i := if index < 0 then index + xs.length else index
    if h : 0 ≤ i ∧ i.toNat < xs.length then .ok (.atom (xs.get ⟨i.toNat, h.2⟩))
    else .error (.indexError "list index out of range")
  | .atom (.str s) =>
    let i := if index < 0 then index + s.data.length else index
    if h : 0 ≤ i ∧ i.toNat < s.data.length then
      .ok (.vstr (String.mk [s.data.get ⟨i.toNat, h.2⟩]))
    else .error (.indexError "string index out of range")
  | _ => .error (.typeError "object is not subscriptable")

/-- Ascending slice index enumeration (`i, i+step, ...` below `stop`). -/
def upIdx (fuel : Nat) (i stop step : Int) : List Int :=
  match fuel with
  | 0 => []
  | f + 1 => if i < stop then i :: upIdx f (i + step) stop step else []

/-- Descending slice index enumeration. -/
def downIdx (fuel : Nat) (i stop step : Int) : List Int :=
  match fuel with
  | 0 => []
  | f + 1 => if stop < i then i :: downIdx f (i + step) stop step else []

/-- The index sequence of a Python slice, following `slice.indices`. -/
def sliceIdx (len : Int) (start? stop? : Option Int) (step : Int) : List Int :=
  if step > 0 then
    let lo := match start? with
      | Option.none => 0
      | Option.some i => if i < 0 then max (i + len) 0 else min i len
    let hi := match stop? with
      | Option.none => len
      | Option.some i => if i < 0 then max (i + len) 0 else min i len
    upIdx (len.toNat + 1) lo hi step
  else
    let lo := match start? with
      | Option.none => len - 1
      | Option.some i => if i < 0 then max (i + len) (-1) else min i (len - 1)
    let hi := match stop? with
      | Option.none => -1
      | Option.some i => if i < 0 then max (i + len) (-1) else min i (len - 1)
    downIdx (len.toNat + 1) lo hi step

/-- Python `xs[start:stop:step]` on a list result. -/
def pySliceList (start? stop? : Option Int) (step : Int) (v : PyVal) :
    Except PyErr PyVal :=
  if step = 0 then .error (.valueError "slice step cannot be zero")
  else
    match v with
    | .list xs =>
      .ok (.list ((sliceIdx xs.length start? stop? step).filterMap
        (fun i => xs.get? i.toNat)))
    | _ => .error (.typeError "object is not subscriptable")

/-- Python `list(map(func, xs))` over a list (or string) result; the
element functions live on the scalar universe. -/
def pyMapList (f : PyAtom → PyAtom) (v : PyVal) : Except PyErr PyVal :=
  match v with
  | .list xs => .ok (.list (xs.map f))
  | .atom (.str s) => .ok (.list (s.data.map (fun ch => f (.str (String.mk [ch])))))
  | _ => .error (.typeError "object is not iterable")

/-- Python `list(filter(func, xs))`. -/
def pyFilterList (f : PyAtom → Bool) (v : PyVal) : Except PyErr PyVal :=
  match v with
  | .list xs => .ok (.list (xs.filter f))
  | _ => .error (.typeError "object is not iterable")

/-- Numeric view of a scalar (`bool` counts as `int`, as for Python `+`). -/
def pyAtomNum : PyAtom → Option Int
  | .int n => Option.some n
  | .bool b => Option.some (if b then 1 else 0)
  | _ => Option.none

/-- Python `sum(xs)`. -/
def pySumList (v : PyVal) : Except PyErr PyVal :=
  match v with
  | .list xs =>
    match xs.mapM pyAtomNum with
    | Option.some ns => .ok (.vint (ns.foldl (fun a b => a + b) 0))
    | Option.none => .error (.typeError "unsupported operand type for +")
  | _ => .error (.typeError "object is not iterable")

/-- Python `functools.reduce(func, xs[, initializer])`. -/
def pyReduceList (f : PyAtom → PyAtom → PyAtom) (init? : Option PyAtom)
    (v : PyVal) : Except PyErr PyVal :=
  match v with
  | .list xs =>
    match init? with
    | Option.some i => .ok (.atom (xs.foldl f i))
    | Option.none =>
      match xs with
      | [] => .error (.typeError "reduce() of empty iterable with no initial value")
      | x :: rest => .ok (.atom (rest.foldl f x))
  | _ => .error (.typeError "object is not iterable")

/-- Python `sep.join(xs)`. -/
def pyJoinList (sep : String) (v : PyVal) : Except PyErr PyVal :=
  match v with
  | .list xs =>
    match xs.mapM (fun a => match a with
      | PyAtom.str s => Option.some s
      | _ => Option.none) with
    | Option.some ss => .ok (.vstr (String.intercalate sep ss))
    | Option.none => .error (.typeError "sequence item: expected str instance")
  | _ => .error (.typeError "can only join an iterable")

/-- ASCII upper-casing, Python `str.upper`. -/
def strUpper (s : String) : String := String.mk (s.data.map Char.toUpper)

/-- `x.upper()`: attribute error on non-strings. -/
def pyUpperV (v : PyVal) : Except PyErr PyVal :=
  match v with
  | .atom (.str s) => .ok (.vstr (strUpper s))
  | _ => .error (.attributeError "object has no attribute upper")

/-- `x.lower()`. -/
def pyLowerV (v : PyVal) : Except PyErr PyVal :=
  match v with
  | .atom (.str s) => .ok (.vstr (strLower s))
  | _ => .error (.attributeError "object has no attribute lower")

/-- `getattr(x, key, default)`: the embedded data values carry no
attribute table, so the default (`None` when absent) is returned. -/
def pyGetAttrD (default : Option PyVal) (_v : PyVal) : PyVal :=
  default.getD PyVal.vnone

/-- `x[key]` with a string key. -/
def pyGetItemRaw (key : String) (v : PyVal) : Except PyErr PyVal :=
  match v with
  | .dict xs =>
    match xs.find? (fun p => p.1 = PyAtom.str key) with
    | Option.some p => .ok (.atom p.2)
    | Option.none => .error (.keyError key)
  | .list _ => .error (.typeError "list indices must be integers or slices, not str")
  | _ => .error (.typeError "object is not subscriptable")

/-- `func.Index` (`func.py` 14-27). -/
def Index (pat : BPatRec) (index : Int) : BPatRec :=
  let new1 : BPatRec :=
    { pat with matchFn := fun input => (pat.matchFn input).bind (pyIndex index) }
  bprefresh { new1 with aliasName := Option.some (pat.rep ++ "[" ++ toString index ++ "]") }

/-- `func.Slice` (`func.py` 30-55): with both bounds absent the argument
pattern itself is returned unchanged. -/
def Slice (pat : BPatRec) (start? end? : Option Int) (step : Int) : BPatRec :=
  if start?.isNone && end?.isNone then pat
  else
    let new1 : BPatRec :=
      { pat with matchFn := fun input => (pat.matchFn input).bind (pySliceList start? end? step) }
    let sliceStr :=
      (match start?, end? with
       | Option.some a, Option.some b => toString a ++ ":" ++ toString b
       | Option.some a, Option.none => toString a ++ ":"
       | Option.none, b => ":" ++ (b.map toString).getD "") ++
      (if step ≠ 1 then ":" ++ toString step else "")
    bprefresh { new1 with aliasName := Option.some (pat.rep ++ "[" ++ sliceStr ++ "]") }

/-- `func.Map` (`func.py` 58-72).  `funcname` is the display name that the
source takes from `funcname or func.__name__`. -/
def Map (pat : BPatRec) (func : PyAtom → PyAtom) (funcname : String) : BPatRec :=
  let new1 : BPatRec :=
    { pat with matchFn := fun input => (pat.matchFn input).bind (pyMapList func) }
  bprefresh { new1 with aliasName := Option.some (pat.rep ++ ".map(" ++ funcname ++ ")") }

/-- `func.Filter` (`func.py` 75-89). -/
def Filter (pat : BPatRec) (func : PyAtom → Bool) (funcname : String) : BPatRec :=
  let new1 : BPatRec :=
    { pat with matchFn := fun input => (pat.matchFn input).bind (pyFilterList func) }
  bprefresh { new1 with aliasName := Option.some (pat.rep ++ ".filter(" ++ funcname ++ ")") }

/-- `func.Sum` (`func.py` 110-122). -/
def Sum (pat : BPatRec) : BPatRec :=
  let new1 : BPatRec :=
    { pat with matchFn := fun input => (pat.matchFn input).bind pySumList }
  bprefresh { new1 with aliasName := Option.some ("sum(" ++ pat.rep ++ ")") }

/-- `func.Reduce` (`func.py` 143-158). -/
def Reduce (pat : BPatRec) (func : PyAtom → PyAtom → PyAtom)
    (initializer : Option PyAtom) (funcname : String) : BPatRec :=
  let new1 : BPatRec :=
    { pat with matchFn := fun input => (pat.matchFn input).bind (pyReduceList func initializer) }
  bprefresh { new1 with aliasName := Option.some (pat.rep ++ ".reduce(" ++ funcname ++ ")") }

/-- `func.Join` (`func.py` 161-174). -/
def Join (pat : BPatRec) (sep : String) : BPatRec :=
  let new1 : BPatRec :=
    { pat with matchFn := fun input => (pat.matchFn input).bind (pyJoinList sep) }
  bprefresh { new1 with aliasName := Option.some (pat.rep ++ ".join('" ++ sep ++ "')") }

/-- `func.Upper` (`func.py` 177-189). -/
def Upper (pat : BPatRec) : BPatRec :=
  let new1 : BPatRec :=
    { pat with matchFn := fun input => (pat.matchFn input).bind pyUpperV }
  bprefresh { new1 with aliasName := Option.some (pat.rep ++ ".upper()") }

/-- `func.Lower` (`func.py` 192-204). -/
def Lower (pat : BPatRec) : BPatRec :=
  let new1 : BPatRec :=
    { pat with matchFn := fun input => (pat.matchFn input).bind pyLowerV }
  bprefresh { new1 with aliasName := Option.some (pat.rep ++ ".lower()") }

/-- `func.Dot` (`func.py` 207-223): alias and refresh as the others, and
then `origin` is additionally overwritten. -/
def Dot (pat : BPatRec) (origin : PyType) (key : String) (default : Option PyVal) :
    BPatRec :=
  let new1 : BPatRec :=
    { pat with matchFn := fun input => (pat.matchFn input).map (pyGetAttrD default) }
  let new2 := bprefresh { new1 with aliasName := Option.some (pat.rep ++ "." ++ key) }
  { new2 with origin := origin }

/-- The `try/except Exception` wrapper of `func.GetItem`: any exception is
replaced by the default when one was supplied, and re-raised otherwise. -/
def exceptFallback (default : Option PyVal) (r : Except PyErr PyVal) :
    Except PyErr PyVal :=
  match r with
  | .ok v => .ok v
  | .error e =>
    match default with
    | Option.some d => .ok d
    | Option.none => .error e

/-- `func.GetItem` (`func.py` 226-247): the whole `match-then-subscript`
is wrapped in `try/except Exception`, falling back to the default when one
was supplied; `origin` is additionally overwritten. -/
def GetItem (pat : BPatRec) (origin : PyType) (key : String) (default : Option PyVal) :
    BPatRec :=
  let new1 : BPatRec :=
    { pat with matchFn := fun input =>
        exceptFallback default ((pat.matchFn input).bind (pyGetItemRaw key)) }
  let new2 := bprefresh { new1 with aliasName := Option.some (pat.rep ++ "." ++ key) }
  { new2 with origin := origin }

/-- `func.Step` (`func.py` 250-266). -/
def Step (pat : BPatRec) (func : PyVal → PyVal) (funcname : String) : BPatRec :=
  let new1 : BPatRec :=
    { pat with matchFn := fun input => (pat.matchFn input).map func }
  bprefresh { new1 with aliasName := Option.some (funcname ++ "(" ++ pat.rep ++ ")") }

/-- The test fixture `chars` pattern (`test_funcs`): a `TYPE_CONVERT`
pattern accepting strings, with origin `list[str]` and converter
`lambda _, x: list(x)`. -/
def charsMatch (input : PyVal) : Except PyErr PyVal :=
  match input with
  | .atom (.str s) => .ok (.list (s.data.map (fun ch => .str (String.mk [ch]))))
  | _ => .error (.matchFailed "type_error")

/-- The `chars` pattern record. -/
def charsPat : BPatRec :=
  { matchFn := charsMatch, aliasName := Option.some "chars", origin := .listT,
    mode := .typeConvert, pattern := "", validators := [], rep := "chars" }

/-! ### `SequencePattern` / `MappingPattern` (`base.py` 227-343) -/

/-- `IterMode` (`base.py` 218-221). -/
inductive IterMode where
  | pre
  | suf
  | all
deriving DecidableEq, Repr

/-- Split a character list at every occurrence of a separator character,
keeping empty groups (Python `re.split` semantics). -/
def splitOnSep (sep : Char → Bool) : List Char → List (List Char)
  | [] => [[]]
  | a :: rest =>
    match splitOnSep sep rest with
    | [] => [[]]
    | g :: gs => if sep a then [] :: g :: gs else (a :: g) :: gs

/-- Strip what `\s*SEP\s*` consumes after each separator: all groups but
the first lose leading whitespace, and (via `stripGroups`) all but the
last lose trailing whitespace. -/
def stripTail : List (List Char) → List (List Char)
  | [] => []
  | [g] => [trimLeftChars g]
  | g :: gs => trimChars g :: stripTail gs

/-- Strip the separator-adjacent whitespace from every group. -/
def stripGroups : List (List Char) → List (List Char)
  | [] => []
  | [g] => [g]
  | g :: gs => trimRightChars g :: stripTail gs

/-- `re.split(r"\s*,\s*", s)`. -/
def splitCommaWS (s : String) : List String :=
  (stripGroups (splitOnSep (fun ch => ch = ',') s.data)).map String.mk

/-- `re.split(r"\s*[:=]\s*", s)`. -/
def splitKVWS (s : String) : List String :=
  (stripGroups (splitOnSep (fun ch => ch = ':' || ch = '=') s.data)).map String.mk

/-- The anchored bracket regex `^OPEN(.+?)CLOSE$` under `re.match` (the
`search` fallback is equivalent because of the anchors): the string must
start with the opening character, end with the closing one, and have a
non-empty inner part without newlines; the capture is everything between
the first and the last character. -/
def bracketInner (o c : Char) (s : String) : Option String :=
  match s.data with
  | [] => Option.none
  | a :: rest =>
    if a = o ∧ rest.getLast? = Option.some c ∧ rest.dropLast ≠ [] ∧
        rest.dropLast.all (fun ch => ch ≠ '\n') then
      Option.some (String.mk rest.dropLast)
    else Option.none

/-- The element extraction of `SequencePattern.match` (`base.py` 247-252):
`self._match` is the `_regex_convert_no_previous_other` dispatch with the
container origin and converter `lambda _, x: x[1]`, so a container input
passes through unchanged and a string input must match the bracket regex,
after which the captured group is split on `\s*,\s*`.  The result is the
element list the per-element loop iterates over.  (The embedded universe
represents the tuple and set container forms by the same element sequence
with their respective bracket characters.) -/
def seqExtract (o c : Char) (input : PyVal) : Except PyErr (List PyVal) :=
  match input with
  | .list xs => .ok (xs.map PyVal.atom)
  | .atom (.str s) =>
    match bracketInner o c s with
    | Option.some inner => .ok ((splitCommaWS inner).map PyVal.vstr)
    | Option.none => .error (.matchFailed "content_error")
  | _ => .error (.matchFailed "type_error")

/-- The re-wrapped per-element failure recorded by `SequencePattern.match`:
`MatchFailed(f"{s} is not matched with {self.base}")` (the base pattern's
repr is abstracted to a fixed token). -/
def wrapFailMsg (e : PyVal) : PyErr :=
  .matchFailed (pyStr e ++ " is not matched with the base pattern")

/-- The per-element loop of `SequencePattern.match` (`base.py` 250-256):
successes and failures are recorded with their indices; only `MatchFailed`
is caught, any other exception aborts the whole match. -/
def seqCollectGo (base : PyVal → Except PyErr PyVal) (i : Nat) :
    List PyVal → Except PyErr (List (Nat × PyVal) × List (Nat × PyErr))
  | [] => .ok ([], [])
  | e :: es =>
    match base e with
    | .ok v =>
      match seqCollectGo base (i + 1) es with
      | .ok (s, f) => .ok ((i, v) :: s, f)
      | .error err => .error err
    | .error (.matchFailed _) =>
      match seqCollectGo base (i + 1) es with
      | .ok (s, f) => .ok (s, (i, wrapFailMsg e) :: f)
      | .error err => .error err
    | .error err => .error err

/-- The iteration-mode policy of `SequencePattern.match` (`base.py`
258-268) applied to the collected successes and failures: `ALL` aborts on
any failure, `PRE` aborts when the first failure is at index `0` and
otherwise keeps the successes before it, `SUF` aborts when the last
failure is at the final index (`_max`, i.e. `len - 1`) and otherwise keeps
the successes after it; the raised error is always the first recorded
failure. -/
def seqMatchCore (m : IterMode) (base : PyVal → Except PyErr PyVal)
    (es : List PyVal) : Except PyErr (List PyVal) :=
  match seqCollectGo base 0 es with
  | .error e => .error e
  | .ok (success, fail) =>
    match m, fail with
    | .all, f :: _ => .error f.2
    | .pre, f :: _ =>
      if f.1 = 0 then .error f.2
      else .ok ((success.filter (fun p => p.1 < f.1)).map (fun p => p.2))
    | .suf, f :: fs =>
      if (((f :: fs).getLast?).getD f).1 = es.length - 1 then .error f.2
      else .ok ((success.filter (fun p =>
        (((f :: fs).getLast?).getD f).1 < p.1)).map (fun p => p.2))
    | _, [] => .ok (success.map (fun p => p.2))

/-- `SequencePattern.match`, producing the element sequence handed to the
container constructor `self.origin(...)`. -/
def seqMatch (o c : Char) (m : IterMode) (base : PyVal → Except PyErr PyVal)
    (input : PyVal) : Except PyErr (List PyVal) :=
  match seqExtract o c input with
  | .ok es => seqMatchCore m base es
  | .error e => .error e

/-- Specification view: the `(index, element)` pairs on which the element
pattern fails. -/
def failPairs (base : PyVal → Except PyErr PyVal) (i : Nat) :
    List PyVal → List (Nat × PyVal)
  | [] => []
  | e :: es =>
    match base e with
    | .ok _ => failPairs base (i + 1) es
    | .error _ => (i, e) :: failPairs base (i + 1) es

/-- The set `F` of the claim: the indices at which element validation
fails, in increasing order. -/
def failIdxs (base : PyVal → Except PyErr PyVal) (es : List PyVal) : List Nat :=
  (failPairs base 0 es).map (fun p => p.1)

/-- Specification view: the `(index, produced value)` pairs of the
successful elements. -/
def succPairs (base : PyVal → Except PyErr PyVal) (i : Nat) :
    List PyVal → List (Nat × PyVal)
  | [] => []
  | e :: es =>
    match base e with
    | .ok v => (i, v) :: succPairs base (i + 1) es
    | .error _ => succPairs base (i + 1) es

/-- The re-wrapped per-item failure of `MappingPattern.match`. -/
def wrapKVMsg (k v : PyVal) : PyErr :=
  .matchFailed (pyStr k ++ ": " ++ pyStr v ++ " is not matched with the key and value patterns")

/-- `k, v = item` after `re.split(r"\s*[:=]\s*", m)` for each comma part:
exactly two pieces unpack, any other number raises `ValueError`. -/
def partsToItems : List String → Except PyErr (List (PyVal × PyVal))
  | [] => .ok []
  | p :: ps =>
    match splitKVWS p with
    | [k, v] =>
      match partsToItems ps with
      | .ok items => .ok ((PyVal.vstr k, PyVal.vstr v) :: items)
      | .error e => .error e
    | _ => .error (.valueError "values to unpack")

/-- The item extraction of `MappingPattern.match` (`base.py` 306-320):
a dict input yields its items; a string input must match the brace regex
and is then split on commas and on `:`/`=`.  -/
def mapExtract (input : PyVal) : Except PyErr (List (PyVal × PyVal)) :=
  match input with
  | .dict xs => .ok (xs.map (fun p => (PyVal.atom p.1, PyVal.atom p.2)))
  | .atom (.str s) =>
    match bracketInner obraceC cbraceC s with
    | Option.some inner => partsToItems (splitCommaWS inner)
    | Option.none => .error (.matchFailed "content_error")
  | _ => .error (.matchFailed "type_error")

/-- The per-item loop of `MappingPattern.match` (`base.py` 319-329): the
key pattern runs first, then the value pattern; only `MatchFailed` is
caught, anything else aborts the whole match. -/
def mapCollectGo (kb vb : PyVal → Except PyErr PyVal) (i : Nat) :
    List (PyVal × PyVal) →
      Except PyErr (List (Nat × PyVal × PyVal) × List (Nat × PyErr))
  | [] => .ok ([], [])
  | (k, v) :: items =>
    match kb k with
    | .error (.matchFailed _) =>
      match mapCollectGo kb vb (i + 1) items with
      | .ok (s, f) => .ok (s, (i, wrapKVMsg k v) :: f)
      | .error err => .error err
    | .error err => .error err
    | .ok kv =>
      match vb v with
      | .error (.matchFailed _) =>
        match mapCollectGo kb vb (i + 1) items with
        | .ok (s, f) => .ok (s, (i, wrapKVMsg k v) :: f)
        | .error err => .error err
      | .error err => .error err
      | .ok vv =>
        match mapCollectGo kb vb (i + 1) items with
        | .ok (s, f) => .ok ((i, kv, vv) :: s, f)
        | .error err => .error err

/-- Python dict insertion: an existing key keeps its position and takes
the new value, a fresh key is appended. -/
def pyDictInsert (xs : List (PyVal × PyVal)) (k v : PyVal) : List (PyVal × PyVal) :=
  match xs with
  | [] => [(k, v)]
  | (k', v') :: rest =>
    if k' = k then (k, v) :: rest else (k', v') :: pyDictInsert rest k v

/-- The dict comprehension `{i[1]: i[2] for i in ...}`. -/
def buildDict (ts : List (PyVal × PyVal)) : List (PyVal × PyVal) :=
  ts.foldl (fun acc p => pyDictInsert acc p.1 p.2) []

/-- The iteration-mode policy of `MappingPattern.match` (`base.py`
330-340), identical in shape to the sequence one, building a dict from
the selected successes. -/
def mapMatchCore (m : IterMode) (kb vb : PyVal → Except PyErr PyVal)
    (items : List (PyVal × PyVal)) : Except PyErr (List (PyVal × PyVal)) :=
  match mapCollectGo kb vb 0 items with
  | .error e => .error e
  | .ok (success, fail) =>
    match m, fail with
    | .all, f :: _ => .error f.2
    | .pre, f :: _ =>
      if f.1 = 0 then .error f.2
      else .ok (buildDict ((success.filter (fun p => p.1 < f.1)).map (fun p => p.2)))
    | .suf, f :: fs =>
      if (((f :: fs).getLast?).getD f).1 = items.length - 1 then .error f.2
      else .ok (buildDict ((success.filter (fun p =>
        (((f :: fs).getLast?).getD f).1 < p.1)).map (fun p => p.2)))
    | _, [] => .ok (buildDict (success.map (fun p => p.2)))

/-- `MappingPattern.match`, as the resulting dict's association list. -/
def mapMatch (m : IterMode) (kb vb : PyVal → Except PyErr PyVal)
    (input : PyVal) : Except PyErr (List (PyVal × PyVal)) :=
  match mapExtract input with
  | .ok items => mapMatchCore m kb vb items
  | .error e => .error e

/-- Specification view: the `(index, key, value)` items failing key or
value validation. -/
def kvFailPairs (kb vb : PyVal → Except PyErr PyVal) (i : Nat) :
    List (PyVal × PyVal) → List (Nat × PyVal × PyVal)
  | [] => []
  | (k, v) :: items =>
    match kb k with
    | .error _ => (i, k, v) :: kvFailPairs kb vb (i + 1) items
    | .ok _ =>
      match vb v with
      | .error _ => (i, k, v) :: kvFailPairs kb vb (i + 1) items
      | .ok _ => kvFailPairs kb vb (i + 1) items

/-- The failing index set `F` for a mapping. -/
def kvFailIdxs (kb vb : PyVal → Except PyErr PyVal) (items : List (PyVal × PyVal)) :
    List Nat :=
  (kvFailPairs kb vb 0 items).map (fun p => p.1)

/-- Specification view: the `(index, matched key, matched value)` triples
of the successful items. -/
def kvSuccTriples (kb vb : PyVal → Except PyErr PyVal) (i : Nat) :
    List (PyVal × PyVal) → List (Nat × PyVal × PyVal)
  | [] => []
  | (k, v) :: items =>
    match kb k, vb v with
    | .ok kv, .ok vv => (i, kv, vv) :: kvSuccTriples kb vb (i + 1) items
    | _, _ => kvSuccTriples kb vb (i + 1) items

/-! ### Theorems -/

/-- Claim C10: the prebuilt integer pattern's `match` returns its input
unchanged exactly for `int` inputs that are not the booleans `True`/`False`;
a boolean input falls through to the `int()` conversion, so `match(True)`
yields the plain integer `1` and `match(False)` yields `0`, never the
original boolean objects. -/
theorem int_pattern_bool_falls_through_to_conversion :
    (∀ n : Int, intPatternMatch (.vint n) = .ok (.vint n)) ∧
    intPatternMatch (.vbool true) = .ok (.vint 1) ∧
    intPatternMatch (.vbool false) = .ok (.vint 0) ∧
    (∀ b : Bool, intPatternMatch (.vbool b) ≠ .ok (.vbool b)) := by
  refine ⟨fun n => ?_, by decide, by decide, fun b => ?_⟩
  · simp [intPatternMatch, isInst, PyVal.vint, PyVal.vbool]
  · cases b <;> decide

/-- Claim C2, counterexample: the claim speaks of `AntiPattern(P).match`,
but `AntiPattern` does not override `match` — it only overrides `validate`.
Its inherited `match` is the ordinary type-convert matcher for
`origin = P.origin`, so for `P = DirectTypePattern(int)` and input `123`
both `P.match(123)` and `AntiPattern(P).match(123)` succeed, refuting
"exactly one of `P.match(x)` and `AntiPattern(P).match(x)` succeeds". -/
theorem anti_pattern_match_not_negation :
    directTypeIntPat.matchFn (.vint 123) = .ok (.vint 123) ∧
    antiMatchOf directTypeIntPat (.vint 123) = .ok (.vint 123) := by
  constructor <;> rfl

/-- Claim C2 (amended): the negation law holds at the `validate` level, not
the `match` level.  For every pattern `P` whose `match` signals failure only
via `MatchFailed` on the given input, exactly one of `P.validate(x)` and
`AntiPattern(P).validate(x)` succeeds; `AntiPattern(P).validate` never
raises under that proviso, and when it succeeds it returns the original
input `x` unchanged. -/
theorem anti_validate_exclusive (base : Pat) (x : PyVal)
    (h : errIsMF (base.matchFn x) = true) :
    ∃ r : VRes, antiValidate base x Option.none = .ok r ∧
      ((bpValidate base x Option.none).flag = .valid ↔ ¬ r.flag = .valid) ∧
      (r.flag = .valid → r.val = Option.some x) := by
  cases hm : base.matchFn x with
  | ok v =>
    cases hall : base.validators.all (fun f => f v) with
    | true =>
      refine ⟨⟨Option.none, Option.some (.matchFailed "content_error"), .error⟩, ?_, ?_, ?_⟩
      · simp [antiValidate, hm, hall]
      · simp [bpValidate, hm, hall]
      · simp
    | false =>
      have hne : base.validators.isEmpty = false := by
        cases hval : base.validators with
        | nil => rw [hval] at hall; simp at hall
        | cons a l => simp [hval]
      refine ⟨⟨Option.some x, Option.none, .valid⟩, ?_, ?_, ?_⟩
      · simp [antiValidate, hm, hall]
      · simp [bpValidate, hm, hall, hne]
      · simp
  | error e =>
    rw [hm] at h
    cases e with
    | matchFailed m =>
      refine ⟨⟨Option.some x, Option.none, .valid⟩, ?_, ?_, ?_⟩
      · simp [antiValidate, hm]
      · simp [bpValidate, hm]
      · simp
    | typeError m => simp [errIsMF] at h
    | valueError m => simp [errIsMF] at h
    | runtimeError m => simp [errIsMF] at h
    | indexError m => simp [errIsMF] at h
    | keyError m => simp [errIsMF] at h
    | attributeError m => simp [errIsMF] at h

/-- Witness for `anti_validate_exclusive`: `DirectTypePattern(int)` on the
string `"abc"` — the base match fails with `MatchFailed`, so the negation
succeeds with the original input while the base `validate` fails. -/
theorem anti_validate_exclusive_witness :
    errIsMF (directTypeIntPat.matchFn (.vstr "abc")) = true ∧
    ∃ r : VRes, antiValidate directTypeIntPat (.vstr "abc") Option.none = .ok r ∧
      ((bpValidate directTypeIntPat (.vstr "abc") Option.none).flag = .valid ↔ ¬ r.flag = .valid) ∧
      (r.flag = .valid → r.val = Option.some (.vstr "abc")) :=
  ⟨by decide, anti_validate_exclusive directTypeIntPat (.vstr "abc") (by decide)⟩

/-- Claim C4, counterexample: for `VALUE_OPERATE` mode the converter is
always applied, even to an input that is already an instance of the origin
type — the test pattern with converter `lambda _, x: x + 1` maps the
`int`-typed input `123` to `124`, not to itself. -/
theorem value_operate_not_idempotent :
    isInst (.vint 123) .intT = true ∧
    valueOperateNoPrevious .intT incrConv (.vint 123) = .ok (.vint 124) ∧
    valueOperateNoPrevious .intT incrConv (.vint 123) ≠ .ok (.vint 123) := by
  decide

/-- Claim C4 (amended): the short-circuit on origin-typed input holds for
the cited `TYPE_CONVERT` dispatch (no accepts filter, no previous, concrete
origin) and the cited `REGEX_CONVERT` dispatch (concrete origin, no
previous): such input is returned unchanged without running the converter.
For `VALUE_OPERATE` the converter always runs (see the counterexample). -/
theorem convert_modes_origin_short_circuit {M : Type}
    (origin : PyType) (conv : PyVal → Except PyErr (Option PyVal))
    (rmatch : String → Option M) (rconv : M → Except PyErr (Option PyVal))
    (v : PyVal) (h : isInst v origin = true) :
    typeConvertNoPrevNoAcceptsOther origin conv v = .ok v ∧
    regexConvertNoPrevOther origin rmatch rconv v = .ok v := by
  constructor
  · simp [typeConvertNoPrevNoAcceptsOther, h]
  · simp [regexConvertNoPrevOther, h]

/-- Witness for `convert_modes_origin_short_circuit` at `origin = int`,
input `5`, with a converter that would reject everything. -/
theorem convert_modes_origin_short_circuit_witness :
    isInst (.vint 5) .intT = true ∧
    (typeConvertNoPrevNoAcceptsOther .intT incrConv (.vint 5) = .ok (.vint 5) ∧
     regexConvertNoPrevOther .intT (fun s => Option.some s)
       (fun _ => .ok Option.none) (.vint 5) = .ok (.vint 5)) :=
  ⟨by decide,
   convert_modes_origin_short_circuit .intT incrConv (fun s => Option.some s)
     (fun _ => .ok Option.none) (.vint 5) (by decide)⟩

/-- Claim C5, counterexample: `validate` can raise for `AntiPattern` even
with a default supplied.  `AntiPattern(INTEGER).validate("1"*4301, 0)`
propagates the bare `ValueError` that `IntPattern.match` raises for
over-long digit strings, because `AntiPattern.validate` catches only
`MatchFailed`. -/
theorem anti_validate_raises_with_default :
    antiValidate integerPat (.vstr longNumStr) (Option.some (.vint 0)) =
      .error (.valueError "int too large to convert") := by
  have hL : longNumStr.length = 4301 := by
    have h0 : longNumStr.length = (List.replicate 4301 '1').length := rfl
    rw [h0, List.length_replicate]
  have h1 : isInst (.vstr longNumStr) .intT = false := rfl
  have hlong : intStrTooLong (.vstr longNumStr) = true := by
    simp [intStrTooLong, PyVal.vstr, hL]
  have hm : intPatternMatch (.vstr longNumStr) =
      .error (.valueError "int too large to convert") := by
    simp only [intPatternMatch]
    rw [if_neg, if_pos hlong]
    rintro ⟨hc, -, -⟩
    rw [h1] at hc
    exact Bool.false_ne_true hc
  unfold antiValidate
  rw [show integerPat.matchFn = intPatternMatch from rfl, hm]

/-- Claim C5 (amended): `BasePattern.validate` (the non-overriding
patterns' entry point) never raises: it catches every exception from
`match` and the validator pass.  With a default `D` supplied, any failure
returns a Default-flagged result carrying exactly `D`, and success returns
a Valid-flagged result carrying the matched value, ignoring `D`.
(`AntiPattern.validate` is the exception: it catches only `MatchFailed`,
see the counterexample.) -/
theorem validate_default_substitution (p : Pat) (x D : PyVal) :
    (∀ e, p.matchFn x = .error e →
      bpValidate p x (Option.some D) = ⟨Option.some D, Option.none, .default⟩) ∧
    (∀ v, p.matchFn x = .ok v → p.validators.all (fun f => f v) = false →
      bpValidate p x (Option.some D) = ⟨Option.some D, Option.none, .default⟩) ∧
    (∀ v, p.matchFn x = .ok v → p.validators.all (fun f => f v) = true →
      bpValidate p x (Option.some D) = ⟨Option.some v, Option.none, .valid⟩) := by
  refine ⟨fun e he => ?_, fun v hv hall => ?_, fun v hv hall => ?_⟩
  · simp [bpValidate, he]
  · have hne : p.validators.isEmpty = false := by
      cases hval : p.validators with
      | nil => rw [hval] at hall; simp at hall
      | cons a l => simp [hval]
    simp [bpValidate, hv, hall, hne]
  · simp [bpValidate, hv, hall]

/-- Witness for `validate_default_substitution`: the integer pattern on the
good input `"12"` ignores the default, and on the bad input `"x"` returns
the default. -/
theorem validate_default_substitution_witness :
    bpValidate integerPat (.vstr "12") (Option.some (.vint 0)) =
      ⟨Option.some (.vint 12), Option.none, .valid⟩ ∧
    bpValidate integerPat (.vstr "x") (Option.some (.vint 0)) =
      ⟨Option.some (.vint 0), Option.none, .default⟩ :=
  ⟨(validate_default_substitution integerPat (.vstr "12") (.vint 0)).2.2
      (.vint 12) (by decide) (by decide),
   (validate_default_substitution integerPat (.vstr "x") (.vint 0)).1
      (.matchFailed "content_error: expected int") (by decide)⟩

/-- Claim C7, counterexample: validators are applied only inside
`validate`, not whenever `match` succeeds.  The test pattern
`BasePattern(KEEP, accepts=int, validators=[greater-than-zero])` applied to
`-23` fails its validator, yet calling `match` directly succeeds and
returns `-23` — no content-error failure happens outside `validate`. -/
theorem match_skips_validators :
    positiveValidator (.vint (-23)) = false ∧
    keepIntPositivePat.matchFn (.vint (-23)) = .ok (.vint (-23)) ∧
    (bpValidate keepIntPositivePat (.vint (-23)) Option.none).flag = .error := by
  decide

/-- Claim C7 (amended): after the mode-specific `match` succeeds, the
`validate` entry point re-applies the `validators`, and any predicate
returning false converts the success into an error result; `match` itself
never consults the validators list. -/
theorem validators_applied_in_validate (p : Pat) (x v : PyVal)
    (hm : p.matchFn x = .ok v) :
    ((∃ f ∈ p.validators, f v = false) → (bpValidate p x Option.none).flag = .error) ∧
    ((∀ f ∈ p.validators, f v = true) → bpValidate p x Option.none = ⟨Option.some v, Option.none, .valid⟩) := by
  constructor
  · rintro ⟨f, hf, hfv⟩
    have hall : p.validators.all (fun g => g v) = false := by
      cases hA : p.validators.all (fun g => g v) with
      | false => rfl
      | true => exact absurd ((List.all_eq_true.mp hA) f hf) (by simp [hfv])
    have hne : p.validators.isEmpty = false := by
      cases hval : p.validators with
      | nil => rw [hval] at hf; simp at hf
      | cons a l => simp [hval]
    simp [bpValidate, hm, hall, hne]
  · intro hall
    have hA : p.validators.all (fun g => g v) = true :=
      List.all_eq_true.mpr (fun f hf => hall f hf)
    simp [bpValidate, hm, hA]

/-- Witness for `validators_applied_in_validate`: the positive-int keep
pattern on `-5`. -/
theorem validators_applied_in_validate_witness :
    (bpValidate keepIntPositivePat (.vint (-5)) Option.none).flag = .error :=
  (validators_applied_in_validate keepIntPositivePat (.vint (-5)) (.vint (-5))
      (by decide)).1
    ⟨positiveValidator, List.mem_cons_self _ _, by decide⟩

/-- Claim C8, counterexample: `step` applied to a failed (error-state)
result with a Pattern argument does raise — `other.validate(self.value())`
calls `value()`, which raises `RuntimeError` on an error-state result. -/
theorem step_pattern_on_failed_raises :
    (bpValidate directTypeIntPat (.vstr "x") Option.none).flag = .error ∧
    vresStep (bpValidate directTypeIntPat (.vstr "x") Option.none)
        (.pattern directTypeIntPat) =
      .error (.runtimeError "cannot access value") := by
  constructor
  · decide
  · rfl

/-- Claim C8 (amended): `step` tolerates type, callable and other-kind
arguments in every state without raising (`bool` returns the success flag;
a non-`bool` type or a callable applies only on success and otherwise
returns the result unchanged), and a Pattern argument re-validates the
contained value when one is accessible; but a Pattern argument on an
error-state (or value-less) result raises the `RuntimeError` of `value()`
instead of returning unchanged. -/
theorem step_tolerates_kinds (r : VRes) :
    (vresStep r .other = .ok (.result r)) ∧
    (vresStep r (.typ .boolT) = .ok (.raw (.vbool r.success))) ∧
    (∀ f, r.flag ≠ .valid → vresStep r (.callable f) = .ok (.result r)) ∧
    (∀ f v, r.flag = .valid → r.val = Option.some v →
      vresStep r (.callable f) = .ok (.raw (f v))) ∧
    (∀ t, t ≠ PyType.boolT → r.flag ≠ .valid → vresStep r (.typ t) = .ok (.result r)) ∧
    (∀ t v, t ≠ PyType.boolT → r.flag = .valid → r.val = Option.some v →
      vresStep r (.typ t) = (pyCoerce t v).map .raw) ∧
    (∀ p v, r.flag ≠ .error → r.val = Option.some v →
      vresStep r (.pattern p) = .ok (.result (bpValidate p v Option.none))) ∧
    (∀ p, r.flag = .error →
      vresStep r (.pattern p) = .error (.runtimeError "cannot access value")) := by
  refine ⟨rfl, ?_, fun f hf => ?_, fun f v hf hv => ?_, fun t ht hf => ?_,
    fun t v ht hf hv => ?_, fun p v hf hv => ?_, fun p hf => ?_⟩
  · simp [vresStep]
  · have hs : r.success = false := by simp [VRes.success, hf]
    simp [vresStep, hs]
  · have hs : r.success = true := by simp [VRes.success, hf]
    simp [vresStep, vresValue, hs, hv, hf]
  · have hs : r.success = false := by simp [VRes.success, hf]
    simp [vresStep, hs, ht]
  · have hs : r.success = true := by simp [VRes.success, hf]
    simp [vresStep, vresValue, hs, hv, hf, ht]
  · simp [vresStep, vresValue, hf, hv]
  · simp [vresStep, vresValue, hf]

/-- Witness for `step_tolerates_kinds`: a successful result stepped through
a callable applies it to the contained value. -/
theorem step_tolerates_kinds_witness :
    vresStep (bpValidate integerPat (.vstr "7") Option.none)
        (.callable (fun v => v)) = .ok (.raw (.vint 7)) :=
  (step_tolerates_kinds (bpValidate integerPat (.vstr "7") Option.none)).2.2.2.1
    (fun v => v) (.vint 7) (by decide) (by decide)

/-- When the first patterns all fail, `UnionPattern.match`'s loop returns
the first succeeding pattern's value. -/
theorem unionLoop_first_valid (x : PyVal) (l₁ : List Pat) (p : Pat) (l₂ : List Pat)
    (hfail : ∀ q ∈ l₁, (bpValidate q x Option.none).flag ≠ .valid)
    (hp : (bpValidate p x Option.none).flag = .valid) :
    unionLoop (l₁ ++ p :: l₂) x =
      Option.some ((bpValidate p x Option.none).val.getD PyVal.vnone) := by
  induction l₁ with
  | nil => simp [unionLoop, hp]
  | cons q l₁ ih =>
    have hq := hfail q (List.mem_cons_self q l₁)
    simp only [List.cons_append, unionLoop]
    rw [if_neg hq]
    exact ih (fun r hr => hfail r (List.mem_cons_of_mem q hr))

/-- When every sub-pattern fails, the loop yields nothing. -/
theorem unionLoop_all_fail (x : PyVal) (ps : List Pat)
    (h : ∀ q ∈ ps, (bpValidate q x Option.none).flag ≠ .valid) :
    unionLoop ps x = Option.none := by
  induction ps with
  | nil => rfl
  | cons q ps ih =>
    simp only [unionLoop]
    rw [if_neg (h q (List.mem_cons_self q ps))]
    exact ih (fun r hr => h r (List.mem_cons_of_mem q hr))

/-- Claim C6, counterexample: the particular union the spec builds from
`DirectPattern("abc")` and `DirectPattern("efg")` has an *empty*
`for_equal` list — pattern members are partitioned into `for_validate` —
so validating `"abc"` succeeds through the sub-pattern branch, not through
the literal-equality branch as claimed. -/
theorem union_of_direct_patterns_skips_equal_branch :
    (mkUnion [.pat directAbcPat, .pat directEfgPat]).for_equal = [] ∧
    unionMatch (mkUnion [.pat directAbcPat, .pat directEfgPat]) (.vstr "abc") =
      .ok (.vstr "abc") := by
  constructor
  · rfl
  · rfl

/-- Claim C6 (amended): `UnionPattern.match` first replaces a falsy input
with `None`; an input literally present in `for_equal` is returned
immediately before any sub-pattern runs; otherwise the `for_validate`
sub-patterns are tried in order, the first success's value is returned,
and a content error is raised when all fail.  The literal-equality branch
applies to unions built from raw values (e.g. `UnionPattern(["abc",
"efg"])`, which validates `"abc"` through `for_equal` and fails on
`"xyz"`); a union of `DirectPattern` members reaches the same verdicts
through the sub-pattern branch instead. -/
theorem union_match_spec (st : UnionSt) (x : PyVal) :
    (truthy x = false → unionMatch st x = unionMatch st PyVal.vnone) ∧
    (truthy x = true → x ∈ st.for_equal → unionMatch st x = .ok x) ∧
    (truthy x = true → x ∉ st.for_equal →
      ∀ l₁ p l₂, st.for_validate = l₁ ++ p :: l₂ →
        (∀ q ∈ l₁, (bpValidate q x Option.none).flag ≠ .valid) →
        (bpValidate p x Option.none).flag = .valid →
        unionMatch st x = .ok ((bpValidate p x Option.none).val.getD PyVal.vnone)) ∧
    (truthy x = true → x ∉ st.for_equal →
      (∀ q ∈ st.for_validate, (bpValidate q x Option.none).flag ≠ .valid) →
      unionMatch st x = .error (.matchFailed "content_error")) ∧
    ((mkUnion [.val (.vstr "abc"), .val (.vstr "efg")]).for_equal =
        [.vstr "abc", .vstr "efg"] ∧
      unionMatch (mkUnion [.val (.vstr "abc"), .val (.vstr "efg")]) (.vstr "abc") =
        .ok (.vstr "abc") ∧
      unionMatch (mkUnion [.val (.vstr "abc"), .val (.vstr "efg")]) (.vstr "xyz") =
        .error (.matchFailed "content_error")) := by
  refine ⟨fun hf => ?_, fun ht hm => ?_, fun ht hm l₁ p l₂ hfv hfail hp => ?_,
    fun ht hm hall => ?_, rfl, rfl, rfl⟩
  · have h0 : truthy PyVal.vnone = false := rfl
    simp [unionMatch, hf, h0]
  · simp [unionMatch, ht, hm]
  · simp only [unionMatch, ht, if_true]
    rw [if_neg hm, hfv, unionLoop_first_valid x l₁ p l₂ hfail hp]
  · simp only [unionMatch, ht, if_true]
    rw [if_neg hm, unionLoop_all_fail x st.for_validate hall]

/-- Witness for `union_match_spec`: the union of the literals `"abc"` and
`"efg"` together with the `DirectPattern(123)` sub-pattern — `"abc"`
returns through the equality branch and `123` through the sub-pattern
branch. -/
theorem union_match_spec_witness :
    unionMatch (mkUnion [.val (.vstr "abc"), .pat directTypeIntPat]) (.vstr "abc") =
      .ok (.vstr "abc") ∧
    unionMatch (mkUnion [.val (.vstr "abc"), .pat directTypeIntPat]) (.vint 123) =
      .ok (.vint 123) := by
  constructor
  · exact ((union_match_spec (mkUnion [.val (.vstr "abc"), .pat directTypeIntPat])
      (.vstr "abc")).2.1 (by decide) (by decide))
  · exact ((union_match_spec (mkUnion [.val (.vstr "abc"), .pat directTypeIntPat])
      (.vint 123)).2.2.1 (by decide) (by decide) [] directTypeIntPat []
      rfl (fun q hq => absurd hq (List.not_mem_nil q)) (by decide))

/-- The `UnionPattern(p1, ..., pn)` calls made by the registry can never
succeed: the constructor takes one iterable argument and patterns are not
iterable. -/
theorem unionPatternCall_error (args : List RPat) :
    ∃ e, unionPatternCall args = .error e := by
  match args with
  | [] => exact ⟨_, rfl⟩
  | [a] => exact ⟨_, rfl⟩
  | a :: b :: rest => exact ⟨_, rfl⟩

/-- Updating one key leaves lookups of other keys unchanged. -/
theorem regLookup_insert_ne (reg : List (PKey × RPat)) (k k' : PKey) (v : RPat)
    (h : k' ≠ k) : regLookup (regInsert reg k v) k' = regLookup reg k' := by
  induction reg with
  | nil =>
    simp only [regInsert, regLookup]
    rw [if_neg (fun hh => h hh.symm)]
  | cons p rest ih =>
    obtain ⟨k0, v0⟩ := p
    by_cases hk : k0 = k
    · subst hk
      simp only [regInsert, if_pos rfl, regLookup]
      rw [if_neg (fun hh => h hh.symm), if_neg (fun hh => h hh.symm)]
    · simp only [regInsert, if_neg hk, regLookup]
      by_cases hk' : k0 = k'
      · rw [if_pos hk', if_pos hk']
      · rw [if_neg hk', if_neg hk', ih]

/-- Order-independence of the `cover=False` failure: whichever iteration
order the Python set produces for the keys, as soon as any key of the set
is already registered, `Patterns.set(..., cover=False)` raises. -/
theorem patternsSetGo_error_of_exists (target : RPat) (ks : List PKey)
    (reg : List (PKey × RPat)) (hnd : ks.Nodup)
    (hex : ∃ k ∈ ks, (regLookup reg k).isSome = true) :
    ∃ e, patternsSetGo target false ks reg = .error e := by
  induction ks generalizing reg with
  | nil =>
    obtain ⟨k, hk, -⟩ := hex
    exact absurd hk (List.not_mem_nil k)
  | cons k ks ih =>
    cases hl : regLookup reg k with
    | some al_pat =>
      cases al_pat with
      | basic a o =>
        obtain ⟨e, he⟩ := unionPatternCall_error [RPat.basic a o, target]
        exact ⟨e, by simp [patternsSetGo, hl, he]⟩
      | union base =>
        obtain ⟨e, he⟩ := unionPatternCall_error (base ++ [target])
        exact ⟨e, by simp [patternsSetGo, hl, he]⟩
    | none =>
      obtain ⟨k', hk', hsome⟩ := hex
      have hkne : k' ≠ k := by
        intro hh
        subst hh
        rw [hl] at hsome
        simp at hsome
      have hk'ks : k' ∈ ks := by
        cases List.mem_cons.mp hk' with
        | inl hh => exact absurd hh hkne
        | inr hh => exact hh
      obtain ⟨e, he⟩ := ih (regInsert reg k target) (List.Nodup.of_cons hnd)
        ⟨k', hk'ks, by rw [regLookup_insert_ne reg k k' target hkne]; exact hsome⟩
      exact ⟨e, by simp [patternsSetGo, hl, he]⟩

/-- Claim C3 (code bug): after `set(P1, alias="a")`, the second call
`set(P2, alias="a", cover=False)` raises `TypeError` instead of merging:
the merge branch calls `UnionPattern(al_pat, target)` — two positional
arguments for a constructor whose signature is `__init__(self, base)` with
a single iterable parameter (and a `BasePattern` is not iterable, so even
the unpacked variant `UnionPattern(*base, target)` cannot succeed).  The
repo's own test `test_converter_method` asserts the merge works. -/
theorem registry_set_cover_false_raises :
    patternsSet patternsInit regP1 (Option.some "a") true false =
      .ok [(.str "", nonePatR), (.str "a", regP1), (.str "P1", regP1),
        (.typ .intT, regP1)] ∧
    patternsSet
        [(.str "", nonePatR), (.str "a", regP1), (.str "P1", regP1),
          (.typ .intT, regP1)]
        regP2 (Option.some "a") false false =
      .error (.typeError "UnionPattern.__init__ takes 2 positional arguments") := by
  constructor
  · rfl
  · rfl

/-- Claim C9, counterexample: `Dot` (like `GetItem`) does not override only
the copy's match function and alias — it also overwrites `origin`. -/
theorem dot_overrides_origin :
    (Dot charsPat .intT "a" Option.none).origin = .intT ∧
    charsPat.origin = .listT ∧ PyType.intT ≠ PyType.listT :=
  ⟨rfl, rfl, by decide⟩

/-- Claim C9 (amended): every combinator builds its result from a copy of
the argument pattern (`deepcopy`, modelled as a functional record update,
so the original is untouched by construction), overriding the match
function — which becomes the original match composed with the combinator's
post-processing step — and the display alias; all other fields are
preserved, except that `Dot` and `GetItem` additionally overwrite
`origin`, and `Slice` without bounds returns the argument pattern itself
unchanged. -/
theorem combinators_pure_wrappers :
    (∀ (pat : BPatRec) (i : Int) (x : PyVal),
      (Index pat i).matchFn x = (pat.matchFn x).bind (pyIndex i) ∧
      (Index pat i).aliasName = Option.some (pat.rep ++ "[" ++ toString i ++ "]") ∧
      (Index pat i).origin = pat.origin ∧ (Index pat i).mode = pat.mode ∧
      (Index pat i).pattern = pat.pattern ∧ (Index pat i).validators = pat.validators) ∧
    (∀ (pat : BPatRec), Slice pat Option.none Option.none 1 = pat) ∧
    (∀ (pat : BPatRec) (a : Int) (b? : Option Int) (st : Int) (x : PyVal),
      (Slice pat (Option.some a) b? st).matchFn x =
        (pat.matchFn x).bind (pySliceList (Option.some a) b? st) ∧
      (Slice pat (Option.some a) b? st).origin = pat.origin ∧
      (Slice pat (Option.some a) b? st).mode = pat.mode ∧
      (Slice pat (Option.some a) b? st).pattern = pat.pattern ∧
      (Slice pat (Option.some a) b? st).validators = pat.validators) ∧
    (∀ (pat : BPatRec) (f : PyAtom → PyAtom) (nm : String) (x : PyVal),
      (Map pat f nm).matchFn x = (pat.matchFn x).bind (pyMapList f) ∧
      (Map pat f nm).aliasName = Option.some (pat.rep ++ ".map(" ++ nm ++ ")") ∧
      (Map pat f nm).origin = pat.origin ∧ (Map pat f nm).mode = pat.mode ∧
      (Map pat f nm).pattern = pat.pattern ∧ (Map pat f nm).validators = pat.validators) ∧
    (∀ (pat : BPatRec) (f : PyAtom → Bool) (nm : String) (x : PyVal),
      (Filter pat f nm).matchFn x = (pat.matchFn x).bind (pyFilterList f) ∧
      (Filter pat f nm).aliasName = Option.some (pat.rep ++ ".filter(" ++ nm ++ ")") ∧
      (Filter pat f nm).origin = pat.origin ∧ (Filter pat f nm).mode = pat.mode ∧
      (Filter pat f nm).pattern = pat.pattern ∧
      (Filter pat f nm).validators = pat.validators) ∧
    (∀ (pat : BPatRec) (x : PyVal),
      (Sum pat).matchFn x = (pat.matchFn x).bind pySumList ∧
      (Sum pat).aliasName = Option.some ("sum(" ++ pat.rep ++ ")") ∧
      (Sum pat).origin = pat.origin ∧ (Sum pat).mode = pat.mode ∧
      (Sum pat).pattern = pat.pattern ∧ (Sum pat).validators = pat.validators) ∧
    (∀ (pat : BPatRec) (f : PyAtom → PyAtom → PyAtom) (init? : Option PyAtom)
        (nm : String) (x : PyVal),
      (Reduce pat f init? nm).matchFn x = (pat.matchFn x).bind (pyReduceList f init?) ∧
      (Reduce pat f init? nm).aliasName =
        Option.some (pat.rep ++ ".reduce(" ++ nm ++ ")") ∧
      (Reduce pat f init? nm).origin = pat.origin ∧
      (Reduce pat f init? nm).mode = pat.mode ∧
      (Reduce pat f init? nm).pattern = pat.pattern ∧
      (Reduce pat f init? nm).validators = pat.validators) ∧
    (∀ (pat : BPatRec) (sep : String) (x : PyVal),
      (Join pat sep).matchFn x = (pat.matchFn x).bind (pyJoinList sep) ∧
      (Join pat sep).aliasName = Option.some (pat.rep ++ ".join('" ++ sep ++ "')") ∧
      (Join pat sep).origin = pat.origin ∧ (Join pat sep).mode = pat.mode ∧
      (Join pat sep).pattern = pat.pattern ∧ (Join pat sep).validators = pat.validators) ∧
    (∀ (pat : BPatRec) (x : PyVal),
      (Upper pat).matchFn x = (pat.matchFn x).bind pyUpperV ∧
      (Upper pat).aliasName = Option.some (pat.rep ++ ".upper()") ∧
      (Upper pat).origin = pat.origin ∧ (Upper pat).mode = pat.mode ∧
      (Upper pat).pattern = pat.pattern ∧ (Upper pat).validators = pat.validators) ∧
    (∀ (pat : BPatRec) (x : PyVal),
      (Lower pat).matchFn x = (pat.matchFn x).bind pyLowerV ∧
      (Lower pat).aliasName = Option.some (pat.rep ++ ".lower()") ∧
      (Lower pat).origin = pat.origin ∧ (Lower pat).mode = pat.mode ∧
      (Lower pat).pattern = pat.pattern ∧ (Lower pat).validators = pat.validators) ∧
    (∀ (pat : BPatRec) (o : PyType) (key : String) (d : Option PyVal) (x : PyVal),
      (Dot pat o key d).matchFn x = (pat.matchFn x).map (pyGetAttrD d) ∧
      (Dot pat o key d).aliasName = Option.some (pat.rep ++ "." ++ key) ∧
      (Dot pat o key d).origin = o ∧ (Dot pat o key d).mode = pat.mode ∧
      (Dot pat o key d).pattern = pat.pattern ∧
      (Dot pat o key d).validators = pat.validators) ∧
    (∀ (pat : BPatRec) (o : PyType) (key : String) (d : Option PyVal) (x : PyVal),
      (GetItem pat o key d).matchFn x =
        exceptFallback d ((pat.matchFn x).bind (pyGetItemRaw key)) ∧
      (GetItem pat o key d).aliasName = Option.some (pat.rep ++ "." ++ key) ∧
      (GetItem pat o key d).origin = o ∧ (GetItem pat o key d).mode = pat.mode ∧
      (GetItem pat o key d).pattern = pat.pattern ∧
      (GetItem pat o key d).validators = pat.validators) ∧
    (∀ (pat : BPatRec) (f : PyVal → PyVal) (nm : String) (x : PyVal),
      (Step pat f nm).matchFn x = (pat.matchFn x).map f ∧
      (Step pat f nm).aliasName = Option.some (nm ++ "(" ++ pat.rep ++ ")") ∧
      (Step pat f nm).origin = pat.origin ∧ (Step pat f nm).mode = pat.mode ∧
      (Step pat f nm).pattern = pat.pattern ∧
      (Step pat f nm).validators = pat.validators) :=
  ⟨fun _ _ _ => ⟨rfl, rfl, rfl, rfl, rfl, rfl⟩,
   fun _ => rfl,
   fun _ _ _ _ _ => ⟨rfl, rfl, rfl, rfl, rfl⟩,
   fun _ _ _ _ => ⟨rfl, rfl, rfl, rfl, rfl, rfl⟩,
   fun _ _ _ _ => ⟨rfl, rfl, rfl, rfl, rfl, rfl⟩,
   fun _ _ => ⟨rfl, rfl, rfl, rfl, rfl, rfl⟩,
   fun _ _ _ _ _ => ⟨rfl, rfl, rfl, rfl, rfl, rfl⟩,
   fun _ _ _ => ⟨rfl, rfl, rfl, rfl, rfl, rfl⟩,
   fun _ _ => ⟨rfl, rfl, rfl, rfl, rfl, rfl⟩,
   fun _ _ => ⟨rfl, rfl, rfl, rfl, rfl, rfl⟩,
   fun _ _ _ _ _ => ⟨rfl, rfl, rfl, rfl, rfl, rfl⟩,
   fun _ _ _ _ _ => ⟨rfl, rfl, rfl, rfl, rfl, rfl⟩,
   fun _ _ _ _ => ⟨rfl, rfl, rfl, rfl, rfl, rfl⟩⟩

/-! ### Sequence/mapping policy lemmas -/

/-- In a `<`-sorted list of naturals, `0` occurs exactly when it is the
head. -/
theorem sorted_head_zero_iff (l : List Nat) (hs : l.Pairwise (fun a b => a < b)) :
    0 ∈ l ↔ l.head? = Option.some 0 := by
  cases l with
  | nil => simp
  | cons a t =>
    simp only [List.head?_cons, Option.some.injEq]
    constructor
    · intro hm
      cases List.mem_cons.mp hm with
      | inl h => exact h.symm
      | inr h =>
        have := (List.pairwise_cons.mp hs).1 0 h
        omega
    · intro h
      subst h
      exact List.mem_cons_self _ _

/-- In a `<`-sorted list, every member is bounded by the last element. -/
theorem sorted_le_getLast :
    ∀ (l : List Nat), l.Pairwise (fun a b => a < b) →
      ∀ x ∈ l, ∀ g, l.getLast? = Option.some g → x ≤ g
  | [], _, x, hx, _, _ => absurd hx (List.not_mem_nil x)
  | [a], _, x, hx, g, hg => by
    simp at hx hg
    omega
  | a :: b :: t, hs, x, hx, g, hg => by
    rw [List.getLast?_cons_cons] at hg
    cases List.mem_cons.mp hx with
    | inl h =>
      have hgmem : g ∈ b :: t := by
        have h2 := List.getLast?_eq_getLast_of_ne_nil (List.cons_ne_nil b t)
        rw [h2] at hg
        cases hg
        exact List.getLast_mem _
      have := (List.pairwise_cons.mp hs).1 g hgmem
      omega
    | inr h =>
      exact sorted_le_getLast (b :: t) (List.pairwise_cons.mp hs).2 x h g hg

/-- In a `<`-sorted list whose members are all at most `M`, `M` occurs
exactly when it is the last element. -/
theorem sorted_max_mem_iff_getLast (l : List Nat)
    (hs : l.Pairwise (fun a b => a < b)) (M : Nat) (hub : ∀ x ∈ l, x ≤ M) :
    M ∈ l ↔ l.getLast? = Option.some M := by
  constructor
  · intro hm
    have hne : l ≠ [] := List.ne_nil_of_mem hm
    have hg := List.getLast?_eq_getLast_of_ne_nil hne
    have h1 : M ≤ l.getLast hne := sorted_le_getLast l hs M hm (l.getLast hne) hg
    have h2 : l.getLast hne ≤ M := hub _ (List.getLast_mem hne)
    rw [hg]
    congr 1
    omega
  · intro hg
    cases hgl : l.getLast? with
    | none => rw [hgl] at hg; cases hg
    | some g =>
      rw [hgl] at hg
      cases hg
      cases l with
      | nil => cases hgl
      | cons a t =>
        have h2 := List.getLast?_eq_getLast_of_ne_nil (List.cons_ne_nil a t)
        rw [h2] at hgl
        cases hgl
        exact List.getLast_mem _

/-- Elements of `failPairs` carry indices in `[i, i + len)`. -/
theorem failPairs_idx_bound (base : PyVal → Except PyErr PyVal) (es : List PyVal) :
    ∀ (i : Nat), ∀ p ∈ failPairs base i es, i ≤ p.1 ∧ p.1 < i + es.length := by
  induction es with
  | nil =>
    intro i p hp
    exact absurd hp (List.not_mem_nil p)
  | cons e es ih =>
    intro i p hp
    cases hm : base e with
    | ok v =>
      simp only [failPairs, hm] at hp
      have := ih (i + 1) p hp
      simp only [List.length_cons]
      omega
    | error err =>
      simp only [failPairs, hm] at hp
      simp only [List.length_cons]
      cases List.mem_cons.mp hp with
      | inl h =>
        subst h
        simp
      | inr h =>
        have := ih (i + 1) p h
        omega

/-- The failure indices are recorded in strictly increasing order. -/
theorem failPairs_pairwise (base : PyVal → Except PyErr PyVal) (es : List PyVal) :
    ∀ (i : Nat), (failPairs base i es).Pairwise (fun a b => a.1 < b.1) := by
  induction es with
  | nil =>
    intro i
    simp [failPairs]
  | cons e es ih =>
    intro i
    cases hm : base e with
    | ok v =>
      simp only [failPairs, hm]
      exact ih (i + 1)
    | error err =>
      simp only [failPairs, hm]
      rw [List.pairwise_cons]
      refine ⟨fun p hp => ?_, ih (i + 1)⟩
      have := (failPairs_idx_bound base es (i + 1) p hp).1
      simp only []
      omega

/-- The claim's index set `F` is `<`-sorted. -/
theorem failIdxs_pairwise (base : PyVal → Except PyErr PyVal) (es : List PyVal) :
    (failIdxs base es).Pairwise (fun a b => a < b) := by
  simp only [failIdxs]
  exact List.pairwise_map.mpr (failPairs_pairwise base es 0)

/-- Every index in `F` is a valid position of the element list. -/
theorem failIdxs_lt_length (base : PyVal → Except PyErr PyVal) (es : List PyVal) :
    ∀ j ∈ failIdxs base es, j < es.length := by
  intro j hj
  obtain ⟨p, hp, rfl⟩ := List.mem_map.mp hj
  have := (failPairs_idx_bound base es 0 p hp).2
  omega

/-- The per-element loop is faithfully described by the `succPairs` /
`failPairs` decomposition whenever the element pattern fails only with
`MatchFailed`. -/
theorem seqCollectGo_eq (base : PyVal → Except PyErr PyVal) :
    ∀ (es : List PyVal), (∀ e ∈ es, errIsMF (base e) = true) → ∀ (i : Nat),
      seqCollectGo base i es =
        .ok (succPairs base i es,
          (failPairs base i es).map (fun p => (p.1, wrapFailMsg p.2)))
  | [], _, i => rfl
  | e :: es, hb, i => by
    have he := hb e (List.mem_cons_self e es)
    have hrest : ∀ x ∈ es, errIsMF (base x) = true :=
      fun x hx => hb x (List.mem_cons_of_mem e hx)
    cases hm : base e with
    | ok v =>
      simp only [seqCollectGo, succPairs, failPairs, hm,
        seqCollectGo_eq base es hrest (i + 1)]
    | error err =>
      rw [hm] at he
      cases err with
      | matchFailed msg =>
        simp only [seqCollectGo, succPairs, failPairs, hm,
          seqCollectGo_eq base es hrest (i + 1), List.map_cons]
      | typeError m => simp [errIsMF] at he
      | valueError m => simp [errIsMF] at he
      | runtimeError m => simp [errIsMF] at he
      | indexError m => simp [errIsMF] at he
      | keyError m => simp [errIsMF] at he
      | attributeError m => simp [errIsMF] at he

/-- `ALL` mode: success exactly on an empty `F`, aborting with the first
recorded failure otherwise. -/
theorem seqAll_core (base : PyVal → Except PyErr PyVal) (es : List PyVal)
    (hb : ∀ e ∈ es, errIsMF (base e) = true) :
    (failPairs base 0 es = [] →
      seqMatchCore .all base es = .ok ((succPairs base 0 es).map (fun p => p.2))) ∧
    (∀ q qs, failPairs base 0 es = q :: qs →
      seqMatchCore .all base es = .error (wrapFailMsg q.2)) := by
  constructor
  · intro h
    simp only [seqMatchCore, seqCollectGo_eq base es hb 0, h, List.map_nil]
  · intro q qs h
    simp only [seqMatchCore, seqCollectGo_eq base es hb 0, h, List.map_cons]

/-- `PRE` mode: failure exactly when `0 ∈ F`; with a non-initial first
failure the successes before it are kept; with no failure everything is
kept. -/
theorem seqPre_core (base : PyVal → Except PyErr PyVal) (es : List PyVal)
    (hb : ∀ e ∈ es, errIsMF (base e) = true) :
    ((∃ e, seqMatchCore .pre base es = .error e) ↔ 0 ∈ failIdxs base es) ∧
    (failPairs base 0 es = [] →
      seqMatchCore .pre base es = .ok ((succPairs base 0 es).map (fun p => p.2))) ∧
    (∀ q qs, failPairs base 0 es = q :: qs → q.1 ≠ 0 →
      seqMatchCore .pre base es =
        .ok (((succPairs base 0 es).filter (fun p => p.1 < q.1)).map (fun p => p.2))) := by
  have hcoll := seqCollectGo_eq base es hb 0
  refine ⟨?_, ?_, ?_⟩
  · cases hf : failPairs base 0 es with
    | nil =>
      simp only [seqMatchCore, hcoll, hf, List.map_nil]
      constructor
      · rintro ⟨e, he⟩
        cases he
      · intro hmem
        rw [failIdxs, hf] at hmem
        exact absurd hmem (List.not_mem_nil 0)
    | cons q qs =>
      simp only [seqMatchCore, hcoll, hf, List.map_cons]
      have hhead : 0 ∈ failIdxs base es ↔ q.1 = 0 := by
        rw [sorted_head_zero_iff _ (failIdxs_pairwise base es)]
        rw [failIdxs, hf, List.map_cons, List.head?_cons]
        simp [eq_comm]
      by_cases hq : q.1 = 0
      · rw [if_pos hq]
        simp only [hhead]
        constructor
        · intro _
          exact hq
        · intro _
          exact ⟨wrapFailMsg q.2, rfl⟩
      · rw [if_neg hq]
        simp only [hhead]
        constructor
        · rintro ⟨e, he⟩
          cases he
        · intro h
          exact absurd h hq
  · intro h
    simp only [seqMatchCore, hcoll, h, List.map_nil]
  · intro q qs h hq
    simp only [seqMatchCore, hcoll, h, List.map_cons]
    rw [if_neg hq]

/-- `SUF` mode: failure exactly when the last index is in `F`; with a
non-final last failure the successes after it are kept; with no failure
everything is kept.  (The error raised is still the *first* recorded
failure, as in the source.) -/
theorem seqSuf_core (base : PyVal → Except PyErr PyVal) (es : List PyVal)
    (hb : ∀ e ∈ es, errIsMF (base e) = true) :
    ((∃ e, seqMatchCore .suf base es = .error e) ↔ (es.length - 1) ∈ failIdxs base es) ∧
    (failPairs base 0 es = [] →
      seqMatchCore .suf base es = .ok ((succPairs base 0 es).map (fun p => p.2))) ∧
    (∀ q qs gl, failPairs base 0 es = q :: qs →
      (q :: qs).getLast? = Option.some gl → gl.1 ≠ es.length - 1 →
      seqMatchCore .suf base es =
        .ok (((succPairs base 0 es).filter (fun p => gl.1 < p.1)).map (fun p => p.2))) := by
  have hcoll := seqCollectGo_eq base es hb 0
  have hWlast : ∀ (q : Nat × PyVal) (qs : List (Nat × PyVal)) (gl : Nat × PyVal),
      (q :: qs).getLast? = Option.some gl →
      ((((q.1, wrapFailMsg q.2) ::
          qs.map (fun p => (p.1, wrapFailMsg p.2))).getLast?).getD
            (q.1, wrapFailMsg q.2)) = (gl.1, wrapFailMsg gl.2) := by
    intro q qs gl hgl
    have h2 := List.getLast?_map (fun p => (p.1, wrapFailMsg p.2)) (q :: qs)
    simp only [List.map_cons] at h2
    rw [h2, hgl]
    rfl
  refine ⟨?_, ?_, ?_⟩
  · cases hf : failPairs base 0 es with
    | nil =>
      simp only [seqMatchCore, hcoll, hf, List.map_nil]
      constructor
      · rintro ⟨e, he⟩
        cases he
      · intro hmem
        rw [failIdxs, hf] at hmem
        exact absurd hmem (List.not_mem_nil _)
    | cons q qs =>
      have hgl := List.getLast?_eq_getLast_of_ne_nil (List.cons_ne_nil q qs)
      set gl := (q :: qs).getLast (List.cons_ne_nil q qs) with hgldef
      have hmemiff : (es.length - 1) ∈ failIdxs base es ↔ gl.1 = es.length - 1 := by
        rw [sorted_max_mem_iff_getLast (failIdxs base es) (failIdxs_pairwise base es)
          (es.length - 1) (fun x hx => by
            have := failIdxs_lt_length base es x hx
            omega)]
        simp only [failIdxs, hf, List.getLast?_map, hgl, Option.map_some',
          Option.some.injEq]
      simp only [seqMatchCore, hcoll, hf, List.map_cons]
      rw [hWlast q qs gl hgl]
      by_cases hq : gl.1 = es.length - 1
      · rw [if_pos (by simpa using hq)]
        constructor
        · intro _
          exact hmemiff.mpr hq
        · intro _
          exact ⟨(q.1, wrapFailMsg q.2).2, rfl⟩
      · rw [if_neg (by simpa using hq)]
        constructor
        · rintro ⟨e, he⟩
          cases he
        · intro hmem
          exact absurd (hmemiff.mp hmem) hq
  · intro h
    simp only [seqMatchCore, hcoll, h, List.map_nil]
  · intro q qs gl hf hgl hne
    simp only [seqMatchCore, hcoll, hf, List.map_cons]
    rw [hWlast q qs gl hgl]
    rw [if_neg (by simpa using hne)]

/-- Items of `kvFailPairs` carry indices in `[i, i + len)`. -/
theorem kvFailPairs_idx_bound (kb vb : PyVal → Except PyErr PyVal)
    (items : List (PyVal × PyVal)) :
    ∀ (i : Nat), ∀ p ∈ kvFailPairs kb vb i items, i ≤ p.1 ∧ p.1 < i + items.length := by
  induction items with
  | nil =>
    intro i p hp
    exact absurd hp (List.not_mem_nil p)
  | cons kv0 items ih =>
    intro i p hp
    obtain ⟨k, v⟩ := kv0
    cases hmk : kb k with
    | error errk =>
      simp only [kvFailPairs, hmk] at hp
      simp only [List.length_cons]
      cases List.mem_cons.mp hp with
      | inl h =>
        subst h
        simp
      | inr h =>
        have := ih (i + 1) p h
        omega
    | ok kk =>
      cases hmv : vb v with
      | error errv =>
        simp only [kvFailPairs, hmk, hmv] at hp
        simp only [List.length_cons]
        cases List.mem_cons.mp hp with
        | inl h =>
          subst h
          simp
        | inr h =>
          have := ih (i + 1) p h
          omega
      | ok vv =>
        simp only [kvFailPairs, hmk, hmv] at hp
        have := ih (i + 1) p hp
        simp only [List.length_cons]
        omega

/-- Mapping failure indices are strictly increasing. -/
theorem kvFailPairs_pairwise (kb vb : PyVal → Except PyErr PyVal)
    (items : List (PyVal × PyVal)) :
    ∀ (i : Nat), (kvFailPairs kb vb i items).Pairwise (fun a b => a.1 < b.1) := by
  induction items with
  | nil =>
    intro i
    simp [kvFailPairs]
  | cons kv0 items ih =>
    intro i
    obtain ⟨k, v⟩ := kv0
    cases hmk : kb k with
    | error errk =>
      simp only [kvFailPairs, hmk]
      rw [List.pairwise_cons]
      refine ⟨fun p hp => ?_, ih (i + 1)⟩
      have := (kvFailPairs_idx_bound kb vb items (i + 1) p hp).1
      simp only []
      omega
    | ok kk =>
      cases hmv : vb v with
      | error errv =>
        simp only [kvFailPairs, hmk, hmv]
        rw [List.pairwise_cons]
        refine ⟨fun p hp => ?_, ih (i + 1)⟩
        have := (kvFailPairs_idx_bound kb vb items (i + 1) p hp).1
        simp only []
        omega
      | ok vv =>
        simp only [kvFailPairs, hmk, hmv]
        exact ih (i + 1)

/-- The mapping index set `F` is `<`-sorted. -/
theorem kvFailIdxs_pairwise (kb vb : PyVal → Except PyErr PyVal)
    (items : List (PyVal × PyVal)) :
    (kvFailIdxs kb vb items).Pairwise (fun a b => a < b) := by
  simp only [kvFailIdxs]
  exact List.pairwise_map.mpr (kvFailPairs_pairwise kb vb items 0)

/-- Every mapping failure index is a valid item position. -/
theorem kvFailIdxs_lt_length (kb vb : PyVal → Except PyErr PyVal)
    (items : List (PyVal × PyVal)) :
    ∀ j ∈ kvFailIdxs kb vb items, j < items.length := by
  intro j hj
  obtain ⟨p, hp, rfl⟩ := List.mem_map.mp hj
  have := (kvFailPairs_idx_bound kb vb items 0 p hp).2
  omega

/-- The per-item loop is faithfully described by the `kvSuccTriples` /
`kvFailPairs` decomposition when key and value patterns fail only with
`MatchFailed`. -/
theorem mapCollectGo_eq (kb vb : PyVal → Except PyErr PyVal) :
    ∀ (items : List (PyVal × PyVal)),
      (∀ p ∈ items, errIsMF (kb p.1) = true ∧ errIsMF (vb p.2) = true) → ∀ (i : Nat),
      mapCollectGo kb vb i items =
        .ok (kvSuccTriples kb vb i items,
          (kvFailPairs kb vb i items).map (fun p => (p.1, wrapKVMsg p.2.1 p.2.2)))
  | [], _, i => rfl
  | (k, v) :: items, hkv, i => by
    have he := hkv (k, v) (List.mem_cons_self (k, v) items)
    have hrest : ∀ p ∈ items, errIsMF (kb p.1) = true ∧ errIsMF (vb p.2) = true :=
      fun p hp => hkv p (List.mem_cons_of_mem (k, v) hp)
    have hrec := mapCollectGo_eq kb vb items hrest (i + 1)
    cases hmk : kb k with
    | error errk =>
      have hek : errIsMF (Except.error errk) = true := by
        have := he.1
        rw [hmk] at this
        exact this
      cases errk with
      | matchFailed m =>
        simp only [mapCollectGo, kvSuccTriples, kvFailPairs, hmk, hrec, List.map_cons]
      | typeError m => simp [errIsMF] at hek
      | valueError m => simp [errIsMF] at hek
      | runtimeError m => simp [errIsMF] at hek
      | indexError m => simp [errIsMF] at hek
      | keyError m => simp [errIsMF] at hek
      | attributeError m => simp [errIsMF] at hek
    | ok kk =>
      cases hmv : vb v with
      | error errv =>
        have hev : errIsMF (Except.error errv) = true := by
          have := he.2
          rw [hmv] at this
          exact this
        cases errv with
        | matchFailed m =>
          simp only [mapCollectGo, kvSuccTriples, kvFailPairs, hmk, hmv, hrec,
            List.map_cons]
        | typeError m => simp [errIsMF] at hev
        | valueError m => simp [errIsMF] at hev
        | runtimeError m => simp [errIsMF] at hev
        | indexError m => simp [errIsMF] at hev
        | keyError m => simp [errIsMF] at hev
        | attributeError m => simp [errIsMF] at hev
      | ok vv =>
        simp only [mapCollectGo, kvSuccTriples, kvFailPairs, hmk, hmv, hrec]

/-- `ALL` mode for mappings. -/
theorem mapAll_core (kb vb : PyVal → Except PyErr PyVal) (items : List (PyVal × PyVal))
    (hkv : ∀ p ∈ items, errIsMF (kb p.1) = true ∧ errIsMF (vb p.2) = true) :
    (kvFailPairs kb vb 0 items = [] →
      mapMatchCore .all kb vb items =
        .ok (buildDict ((kvSuccTriples kb vb 0 items).map (fun p => p.2)))) ∧
    (∀ q qs, kvFailPairs kb vb 0 items = q :: qs →
      mapMatchCore .all kb vb items = .error (wrapKVMsg q.2.1 q.2.2)) := by
  constructor
  · intro h
    simp only [mapMatchCore, mapCollectGo_eq kb vb items hkv 0, h, List.map_nil]
  · intro q qs h
    simp only [mapMatchCore, mapCollectGo_eq kb vb items hkv 0, h, List.map_cons]

/-- `PRE` mode for mappings. -/
theorem mapPre_core (kb vb : PyVal → Except PyErr PyVal) (items : List (PyVal × PyVal))
    (hkv : ∀ p ∈ items, errIsMF (kb p.1) = true ∧ errIsMF (vb p.2) = true) :
    ((∃ e, mapMatchCore .pre kb vb items = .error e) ↔ 0 ∈ kvFailIdxs kb vb items) ∧
    (kvFailPairs kb vb 0 items = [] →
      mapMatchCore .pre kb vb items =
        .ok (buildDict ((kvSuccTriples kb vb 0 items).map (fun p => p.2)))) ∧
    (∀ q qs, kvFailPairs kb vb 0 items = q :: qs → q.1 ≠ 0 →
      mapMatchCore .pre kb vb items =
        .ok (buildDict (((kvSuccTriples kb vb 0 items).filter
          (fun p => p.1 < q.1)).map (fun p => p.2)))) := by
  have hcoll := mapCollectGo_eq kb vb items hkv 0
  refine ⟨?_, ?_, ?_⟩
  · cases hf : kvFailPairs kb vb 0 items with
    | nil =>
      simp only [mapMatchCore, hcoll, hf, List.map_nil]
      constructor
      · rintro ⟨e, he⟩
        cases he
      · intro hmem
        rw [kvFailIdxs, hf] at hmem
        exact absurd hmem (List.not_mem_nil _)
    | cons q qs =>
      simp only [mapMatchCore, hcoll, hf, List.map_cons]
      have hhead : 0 ∈ kvFailIdxs kb vb items ↔ q.1 = 0 := by
        rw [sorted_head_zero_iff _ (kvFailIdxs_pairwise kb vb items)]
        rw [kvFailIdxs, hf, List.map_cons, List.head?_cons]
        simp [eq_comm]
      by_cases hq : q.1 = 0
      · rw [if_pos hq]
        simp only [hhead]
        constructor
        · intro _
          exact hq
        · intro _
          exact ⟨wrapKVMsg q.2.1 q.2.2, rfl⟩
      · rw [if_neg hq]
        simp only [hhead]
        constructor
        · rintro ⟨e, he⟩
          cases he
        · intro h
          exact absurd h hq
  · intro h
    simp only [mapMatchCore, hcoll, h, List.map_nil]
  · intro q qs h hq
    simp only [mapMatchCore, hcoll, h, List.map_cons]
    rw [if_neg hq]

/-- `SUF` mode for mappings. -/
theorem mapSuf_core (kb vb : PyVal → Except PyErr PyVal) (items : List (PyVal × PyVal))
    (hkv : ∀ p ∈ items, errIsMF (kb p.1) = true ∧ errIsMF (vb p.2) = true) :
    ((∃ e, mapMatchCore .suf kb vb items = .error e) ↔
      (items.length - 1) ∈ kvFailIdxs kb vb items) ∧
    (kvFailPairs kb vb 0 items = [] →
      mapMatchCore .suf kb vb items =
        .ok (buildDict ((kvSuccTriples kb vb 0 items).map (fun p => p.2)))) ∧
    (∀ q qs gl, kvFailPairs kb vb 0 items = q :: qs →
      (q :: qs).getLast? = Option.some gl → gl.1 ≠ items.length - 1 →
      mapMatchCore .suf kb vb items =
        .ok (buildDict (((kvSuccTriples kb vb 0 items).filter
          (fun p => gl.1 < p.1)).map (fun p => p.2)))) := by
  have hcoll := mapCollectGo_eq kb vb items hkv 0
  have hWlast : ∀ (q : Nat × PyVal × PyVal) (qs : List (Nat × PyVal × PyVal))
      (gl : Nat × PyVal × PyVal), (q :: qs).getLast? = Option.some gl →
      ((((q.1, wrapKVMsg q.2.1 q.2.2) ::
          qs.map (fun p => (p.1, wrapKVMsg p.2.1 p.2.2))).getLast?).getD
            (q.1, wrapKVMsg q.2.1 q.2.2)) = (gl.1, wrapKVMsg gl.2.1 gl.2.2) := by
    intro q qs gl hgl
    have h2 := List.getLast?_map (fun p => (p.1, wrapKVMsg p.2.1 p.2.2)) (q :: qs)
    simp only [List.map_cons] at h2
    rw [h2, hgl]
    rfl
  refine ⟨?_, ?_, ?_⟩
  · cases hf : kvFailPairs kb vb 0 items with
    | nil =>
      simp only [mapMatchCore, hcoll, hf, List.map_nil]
      constructor
      · rintro ⟨e, he⟩
        cases he
      · intro hmem
        rw [kvFailIdxs, hf] at hmem
        exact absurd hmem (List.not_mem_nil _)
    | cons q qs =>
      have hgl := List.getLast?_eq_getLast_of_ne_nil (List.cons_ne_nil q qs)
      set gl := (q :: qs).getLast (List.cons_ne_nil q qs) with hgldef
      have hmemiff : (items.length - 1) ∈ kvFailIdxs kb vb items ↔
          gl.1 = items.length - 1 := by
        rw [sorted_max_mem_iff_getLast (kvFailIdxs kb vb items)
          (kvFailIdxs_pairwise kb vb items) (items.length - 1) (fun x hx => by
            have := kvFailIdxs_lt_length kb vb items x hx
            omega)]
        simp only [kvFailIdxs, hf, List.getLast?_map, hgl, Option.map_some',
          Option.some.injEq]
      simp only [mapMatchCore, hcoll, hf, List.map_cons]
      rw [hWlast q qs gl hgl]
      by_cases hq : gl.1 = items.length - 1
      · rw [if_pos (by simpa using hq)]
        constructor
        · intro _
          exact hmemiff.mpr hq
        · intro _
          exact ⟨(q.1, wrapKVMsg q.2.1 q.2.2).2, rfl⟩
      · rw [if_neg (by simpa using hq)]
        constructor
        · rintro ⟨e, he⟩
          cases he
        · intro hmem
          exact absurd (hmemiff.mp hmem) hq
  · intro h
    simp only [mapMatchCore, hcoll, h, List.map_nil]
  · intro q qs gl hf hgl hne
    simp only [mapMatchCore, hcoll, hf, List.map_cons]
    rw [hWlast q qs gl hgl]
    rw [if_neg (by simpa using hne)]

/-- Claim C1: for every `SequencePattern` (and `MappingPattern`) matching a
container or bracketed string whose elements fail validation at exactly
the index set `F` (`failIdxs` / `kvFailIdxs`): in `All` mode the match
fails whenever `F` is non-empty, raising the first recorded failure; in
`Prefix` mode it fails exactly when `0 ∈ F` and otherwise returns exactly
the successful elements with index below the first failing index; in
`Suffix` mode it fails exactly when the last index is in `F` and otherwise
returns exactly the successful elements with index above the last failing
index.  The element patterns are assumed to signal failure only with
`MatchFailed`, which is the only exception the loops catch. -/
theorem sequence_mapping_iteration_policy
    (o c : Char) (base kb vb : PyVal → Except PyErr PyVal) (inS inM : PyVal)
    (es : List PyVal) (items : List (PyVal × PyVal))
    (hb : ∀ e ∈ es, errIsMF (base e) = true)
    (hkv : ∀ p ∈ items, errIsMF (kb p.1) = true ∧ errIsMF (vb p.2) = true)
    (hes : seqExtract o c inS = .ok es)
    (hitems : mapExtract inM = .ok items) :
    ((failIdxs base es = [] →
        seqMatch o c .all base inS = .ok ((succPairs base 0 es).map (fun p => p.2))) ∧
     (∀ q qs, failPairs base 0 es = q :: qs →
        seqMatch o c .all base inS = .error (wrapFailMsg q.2))) ∧
    (((∃ e, seqMatch o c .pre base inS = .error e) ↔ 0 ∈ failIdxs base es) ∧
     (failIdxs base es = [] →
        seqMatch o c .pre base inS = .ok ((succPairs base 0 es).map (fun p => p.2))) ∧
     (∀ q qs, failPairs base 0 es = q :: qs → q.1 ≠ 0 →
        seqMatch o c .pre base inS =
          .ok (((succPairs base 0 es).filter (fun p => p.1 < q.1)).map (fun p => p.2)))) ∧
    (((∃ e, seqMatch o c .suf base inS = .error e) ↔
        (es.length - 1) ∈ failIdxs base es) ∧
     (failIdxs base es = [] →
        seqMatch o c .suf base inS = .ok ((succPairs base 0 es).map (fun p => p.2))) ∧
     (∀ q qs gl, failPairs base 0 es = q :: qs →
        (q :: qs).getLast? = Option.some gl → gl.1 ≠ es.length - 1 →
        seqMatch o c .suf base inS =
          .ok (((succPairs base 0 es).filter (fun p => gl.1 < p.1)).map (fun p => p.2)))) ∧
    ((kvFailIdxs kb vb items = [] →
        mapMatch .all kb vb inM =
          .ok (buildDict ((kvSuccTriples kb vb 0 items).map (fun p => p.2)))) ∧
     (∀ q qs, kvFailPairs kb vb 0 items = q :: qs →
        mapMatch .all kb vb inM = .error (wrapKVMsg q.2.1 q.2.2))) ∧
    (((∃ e, mapMatch .pre kb vb inM = .error e) ↔ 0 ∈ kvFailIdxs kb vb items) ∧
     (kvFailIdxs kb vb items = [] →
        mapMatch .pre kb vb inM =
          .ok (buildDict ((kvSuccTriples kb vb 0 items).map (fun p => p.2)))) ∧
     (∀ q qs, kvFailPairs kb vb 0 items = q :: qs → q.1 ≠ 0 →
        mapMatch .pre kb vb inM =
          .ok (buildDict (((kvSuccTriples kb vb 0 items).filter
            (fun p => p.1 < q.1)).map (fun p => p.2))))) ∧
    (((∃ e, mapMatch .suf kb vb inM = .error e) ↔
        (items.length - 1) ∈ kvFailIdxs kb vb items) ∧
     (kvFailIdxs kb vb items = [] →
        mapMatch .suf kb vb inM =
          .ok (buildDict ((kvSuccTriples kb vb 0 items).map (fun p => p.2)))) ∧
     (∀ q qs gl, kvFailPairs kb vb 0 items = q :: qs →
        (q :: qs).getLast? = Option.some gl → gl.1 ≠ items.length - 1 →
        mapMatch .suf kb vb inM =
          .ok (buildDict (((kvSuccTriples kb vb 0 items).filter
            (fun p => gl.1 < p.1)).map (fun p => p.2))))) := by
  have hS : ∀ m, seqMatch o c m base inS = seqMatchCore m base es := by
    intro m
    simp [seqMatch, hes]
  have hM : ∀ m, mapMatch m kb vb inM = mapMatchCore m kb vb items := by
    intro m
    simp [mapMatch, hitems]
  have hF0 : failIdxs base es = [] → failPairs base 0 es = [] := by
    intro h
    simp only [failIdxs, List.map_eq_nil_iff] at h
    exact h
  have hK0 : kvFailIdxs kb vb items = [] → kvFailPairs kb vb 0 items = [] := by
    intro h
    simp only [kvFailIdxs, List.map_eq_nil_iff] at h
    exact h
  refine ⟨⟨fun h => ?_, fun q qs h => ?_⟩,
    ⟨?_, fun h => ?_, fun q qs h hq => ?_⟩,
    ⟨?_, fun h => ?_, fun q qs gl h hgl hq => ?_⟩,
    ⟨fun h => ?_, fun q qs h => ?_⟩,
    ⟨?_, fun h => ?_, fun q qs h hq => ?_⟩,
    ⟨?_, fun h => ?_, fun q qs gl h hgl hq => ?_⟩⟩
  · rw [hS .all]
    exact (seqAll_core base es hb).1 (hF0 h)
  · rw [hS .all]
    exact (seqAll_core base es hb).2 q qs h
  · rw [hS .pre]
    exact (seqPre_core base es hb).1
  · rw [hS .pre]
    exact (seqPre_core base es hb).2.1 (hF0 h)
  · rw [hS .pre]
    exact (seqPre_core base es hb).2.2 q qs h hq
  · rw [hS .suf]
    exact (seqSuf_core base es hb).1
  · rw [hS .suf]
    exact (seqSuf_core base es hb).2.1 (hF0 h)
  · rw [hS .suf]
    exact (seqSuf_core base es hb).2.2 q qs gl h hgl hq
  · rw [hM .all]
    exact (mapAll_core kb vb items hkv).1 (hK0 h)
  · rw [hM .all]
    exact (mapAll_core kb vb items hkv).2 q qs h
  · rw [hM .pre]
    exact (mapPre_core kb vb items hkv).1
  · rw [hM .pre]
    exact (mapPre_core kb vb items hkv).2.1 (hK0 h)
  · rw [hM .pre]
    exact (mapPre_core kb vb items hkv).2.2 q qs h hq
  · rw [hM .suf]
    exact (mapSuf_core kb vb items hkv).1
  · rw [hM .suf]
    exact (mapSuf_core kb vb items hkv).2.1 (hK0 h)
  · rw [hM .suf]
    exact (mapSuf_core kb vb items hkv).2.2 q qs gl h hgl hq

/-- Witness for `sequence_mapping_iteration_policy`: the repo's own test
cases — `SequencePattern(list, INTEGER, PRE)` on the string `"[1, 2, a]"`
yields `[1, 2]`, and `MappingPattern(INTEGER, BOOLEAN, PRE)` on
`{1: True, 2: None}` yields `{1: True}`. -/
theorem sequence_mapping_iteration_policy_witness :
    seqMatch '[' ']' .pre intPatternMatch (.vstr "[1, 2, a]") =
      .ok [.vint 1, .vint 2] ∧
    mapMatch .pre intPatternMatch boolPatternMatch
      (.dict [(.int 1, .bool true), (.int 2, .none)]) =
      .ok [(.vint 1, .vbool true)] := by
  have h := sequence_mapping_iteration_policy '[' ']' intPatternMatch intPatternMatch
    boolPatternMatch (.vstr "[1, 2, a]")
    (.dict [(.int 1, .bool true), (.int 2, .none)])
    [.vstr "1", .vstr "2", .vstr "a"] [(.vint 1, .vbool true), (.vint 2, .vnone)]
    (by decide) (by decide) (by decide) (by decide)
  constructor
  · have h2 := h.2.1.2.2 (2, .vstr "a") [] (by decide) (by decide)
    rw [h2]
    decide
  · have h2 := h.2.2.2.2.1.2.2 (1, .vint 2, .vnone) [] (by decide) (by decide)
    rw [h2]
    decide

end NEPattern
